import Mathlib

/-!
# Verification of the MPTCP path-manager / JOIN-handshake core

Shallow embedding of `net/mptcp/mptcp_ipv4.c` and `net/mptcp/mptcp_ipv6.c`
(MPTCP for Linux 3.1.x).  Bytes are `Nat` values below 256, addresses and
bitfields are `Nat`, machine integers that can be negative are `Int`.
Kernel helpers that are not part of this repository's two source files
(SHA-1, the SYN-queue hash, socket plumbing) are modelled explicitly and
marked as such; helpers of this repository that live in headers outside
the two files (`mptcp_hmac_sha1`, `mptcp_for_each_bit_set`,
`mptcp_find_free_index`) are modelled from the specification, as noted in
their doc comments.
-/

/-! ## Protocol constants -/

def AF_INET : Nat := 2

def AF_INET6 : Nat := 10

def TCP_CLOSE : Nat := 7

def RT_SCOPE_LINK : Nat := 253

/-- Modelled from the spec: `MAX_ADDR = 16` slots per family per direction
(bitfield width = 16 bits).  The constant lives in `net/mptcp.h`, which is
not among the two source files. -/
def MPTCP_MAX_ADDR : Nat := 16

/-- Modelled from the spec: `HASH_SIZE` is a power of two, the size of the
standard TCP SYN-queue hash (512 buckets in this kernel generation). -/
def MPTCP_HASH_SIZE : Nat := 512

/-! ## SHA-1 and HMAC-SHA1 over byte lists

`mptcp_hmac_sha1` is repository code living in `mptcp_ctrl.c`, outside the
two source files; it is modelled from the spec (§4.2): HMAC-SHA1 with the
16-byte key `key_1 || key_2` over the 8-byte message `rand_1 || rand_2`.
The hash itself is the genuine SHA-1 so that the model stays executable. -/

def pow32 : Nat := 4294967296

def add32 (a b : Nat) : Nat := (a + b) % pow32

def rotl32 (n x : Nat) : Nat := ((x <<< n) ||| (x >>> (32 - n))) % pow32

/-- Big-endian bytes of a value, fixed width `n`. -/
def natToBytesBE : Nat → Nat → List Nat
  | 0, _ => []
  | n + 1, v => natToBytesBE n (v / 256) ++ [v % 256]

/-- Group a byte list into big-endian 32-bit words (groups of 4). -/
def bytesToWordsBE : List Nat → List Nat
  | b0 :: b1 :: b2 :: b3 :: rest =>
      (((b0 * 256 + b1) * 256 + b2) * 256 + b3) :: bytesToWordsBE rest
  | _ => []

/-- SHA-1 message schedule: extend 16 words to 80.  `recent` holds the words
produced so far in reverse order (head is the most recent). -/
def sha1Extend (recent : List Nat) : Nat → List Nat
  | 0 => recent
  | k + 1 =>
      sha1Extend
        (rotl32 1 (Nat.xor (Nat.xor (recent.getD 2 0) (recent.getD 7 0))
          (Nat.xor (recent.getD 13 0) (recent.getD 15 0))) :: recent) k

def sha1F (t b c d : Nat) : Nat :=
  if t < 20 then Nat.lor (Nat.land b c) (Nat.land (Nat.xor b 4294967295) d)
  else if t < 40 then Nat.xor (Nat.xor b c) d
  else if t < 60 then Nat.lor (Nat.lor (Nat.land b c) (Nat.land b d)) (Nat.land c d)
  else Nat.xor (Nat.xor b c) d

def sha1K (t : Nat) : Nat :=
  if t < 20 then 0x5A827999
  else if t < 40 then 0x6ED9EBA1
  else if t < 60 then 0x8F1BBCDC
  else 0xCA62C1D6

structure Sha1State where
  a : Nat
  b : Nat
  c : Nat
  d : Nat
  e : Nat
deriving DecidableEq

def sha1Rounds : Nat → List Nat → Sha1State → Sha1State
  | _, [], st => st
  | t, w :: ws, st =>
      let temp := add32 (add32 (add32 (add32 (rotl32 5 st.a) (sha1F t st.b st.c st.d)) st.e)
        (sha1K t)) w
      sha1Rounds (t + 1) ws ⟨temp, st.a, rotl32 30 st.b, st.c, st.d⟩

def sha1Compress (st : Sha1State) (chunk : List Nat) : Sha1State :=
  let ws := bytesToWordsBE chunk
  let w80 := (sha1Extend ws.reverse 64).reverse
  let r := sha1Rounds 0 w80 st
  ⟨add32 st.a r.a, add32 st.b r.b, add32 st.c r.c, add32 st.d r.d, add32 st.e r.e⟩

/-- SHA-1 padding: `0x80`, zeros, then the 64-bit big-endian bit length. -/
def sha1Pad (msg : List Nat) : List Nat :=
  let z := (119 - msg.length % 64) % 64
  msg ++ [128] ++ List.replicate z 0 ++ natToBytesBE 8 (8 * msg.length)

def chunks64Aux : Nat → List Nat → List (List Nat)
  | 0, _ => []
  | _, [] => []
  | fuel + 1, l => l.take 64 :: chunks64Aux fuel (l.drop 64)

def chunks64 (l : List Nat) : List (List Nat) := chunks64Aux l.length l

def sha1InitState : Sha1State :=
  ⟨0x67452301, 0xEFCDAB89, 0x98BADCFE, 0x10325476, 0xC3D2E1F0⟩

/-- The 20-byte SHA-1 digest of a byte list. -/
def sha1 (msg : List Nat) : List Nat :=
  let st := (chunks64 (sha1Pad msg)).foldl sha1Compress sha1InitState
  natToBytesBE 4 st.a ++ natToBytesBE 4 st.b ++ natToBytesBE 4 st.c ++
    natToBytesBE 4 st.d ++ natToBytesBE 4 st.e

/-- HMAC-SHA1 with block size 64. -/
def hmacSha1 (key msg : List Nat) : List Nat :=
  let k0 := if 64 < key.length then sha1 key else key
  let k := k0 ++ List.replicate (64 - k0.length) 0
  let ipad := k.map (Nat.xor 54)
  let opad := k.map (Nat.xor 92)
  sha1 (opad ++ sha1 (ipad ++ msg))

/-- Modelled from the spec: `mptcp_hmac_sha1(key_1, key_2, rand_1, rand_2, out)`
(defined in `mptcp_ctrl.c`, not among the two source files) computes
HMAC-SHA1 with the 16-byte key `key_1 || key_2` over the 8-byte message
`rand_1 || rand_2` and writes the 20-byte digest to `out`. -/
def mptcp_hmac_sha1 (key1 key2 rand1 rand2 : List Nat) : List Nat :=
  hmacSha1 (key1 ++ key2) (rand1 ++ rand2)

/-! ## JOIN request construction (`mptcp_v4_join_request_short`,
`mptcp_v6_join_request_short`)

Only the construction of the `mptcp_request_sock` fields (the code up to the
`tcp_openreq_init` call) is embedded: keys are copied from the mpcb, the
remote nonce from the parsed options, the local nonce is the value produced
by `get_random_bytes`, and the truncated MAC is the (reinterpreted as `u64`)
first 8 bytes of the 20-byte digest.  Keys are 8-byte strings and nonces
4-byte strings, exactly the memory the C code passes by `u8 *` pointer. -/

/-- The fields of `struct mptcp_cb` that the request constructor reads. -/
structure mptcp_cb_keys where
  mptcp_loc_key : List Nat
  mptcp_rem_key : List Nat
deriving DecidableEq

/-- The fields of `struct tcp_options_received` that the JOIN paths read. -/
structure tcp_options_received where
  mptcp_recv_nonce : List Nat
  mpj_addr_id : Nat
  rem_id : Nat
  low_prio : Bool
deriving DecidableEq

/-- The MPTCP-specific fields of `struct mptcp_request_sock` set by the
common JOIN request-creation routine.  `mptcp_hash_tmac` is kept as the
8-byte string that the C code reinterprets as a `u64`. -/
structure mptcp_request_sock where
  mptcp_rem_nonce : List Nat
  mptcp_loc_nonce : List Nat
  mptcp_loc_key : List Nat
  mptcp_rem_key : List Nat
  mptcp_hash_tmac : List Nat
  rem_id : Nat
  low_prio : Bool
deriving DecidableEq

/-- `mptcp_v4_join_request_short`, lines 98–112: construction of the
`mptcp_request_sock` fields.  `loc_nonce` is the fresh random value drawn by
`get_random_bytes`. -/
def mptcp_v4_join_request_short (mpcb : mptcp_cb_keys) (tmp_opt : tcp_options_received)
    (loc_nonce : List Nat) : mptcp_request_sock :=
  { mptcp_rem_nonce := tmp_opt.mptcp_recv_nonce
    mptcp_loc_nonce := loc_nonce
    mptcp_loc_key := mpcb.mptcp_loc_key
    mptcp_rem_key := mpcb.mptcp_rem_key
    mptcp_hash_tmac :=
      (mptcp_hmac_sha1 mpcb.mptcp_loc_key mpcb.mptcp_rem_key
        loc_nonce tmp_opt.mptcp_recv_nonce).take 8
    rem_id := tmp_opt.rem_id
    low_prio := tmp_opt.low_prio }

/-- `mptcp_v6_join_request_short`, lines 286–300: identical construction of
the `mptcp_request_sock` fields for the IPv6 flavour. -/
def mptcp_v6_join_request_short (mpcb : mptcp_cb_keys) (tmp_opt : tcp_options_received)
    (loc_nonce : List Nat) : mptcp_request_sock :=
  { mptcp_rem_nonce := tmp_opt.mptcp_recv_nonce
    mptcp_loc_nonce := loc_nonce
    mptcp_loc_key := mpcb.mptcp_loc_key
    mptcp_rem_key := mpcb.mptcp_rem_key
    mptcp_hash_tmac :=
      (mptcp_hmac_sha1 mpcb.mptcp_loc_key mpcb.mptcp_rem_key
        loc_nonce tmp_opt.mptcp_recv_nonce).take 8
    rem_id := tmp_opt.rem_id
    low_prio := tmp_opt.low_prio }

/-! ## The remote address registry (`struct multipath_options`, one family)

`mptcp_rem_family` is one family's remote-address view of
`struct multipath_options`: `bits` is `rem4_bits` (resp. `rem6_bits`),
`slots` is `addr4[]` (resp. `addr6[]`), and `list_rcvd` is the (shared)
`list_rcvd` flag.  IPv4 and IPv6 addresses are both modelled as numeric
values (`ipv6_addr_equal` is equality of the value, `ipv6_addr_copy` is
assignment), so one slot type serves `struct mptcp_rem4` and
`struct mptcp_rem6`. -/

structure mptcp_rem where
  addr : Nat
  port : Nat
  id : Nat
  bitfield : Nat
  retry_bitfield : Nat
deriving DecidableEq

structure mptcp_rem_family where
  bits : Nat
  slots : Fin 16 → mptcp_rem
  list_rcvd : Bool

/-- The empty registry of one family. -/
def emptyRemFamily : mptcp_rem_family :=
  { bits := 0, slots := fun _ => ⟨0, 0, 0, 0, 0⟩, list_rcvd := false }

/-! ### Scanning the 16 slots in increasing index order

Modelled from the spec: `mptcp_for_each_bit_set(b, i)` (a header macro not
among the two source files) visits the set bits of `b` in increasing index
order, and `mptcp_find_free_index(b)` yields the lowest clear bit among
indices `0..15`, or failure when all 16 are set.  `scanAux h fuel i` visits
indices `i, i+1, ...` (up to 15) and stops at the first index on which `h`
fires. -/

def scanAux {β : Type} (h : Fin 16 → Option β) : Nat → Nat → Option (Fin 16 × β)
  | 0, _ => none
  | fuel + 1, i =>
      if hlt : i < 16 then
        match h ⟨i, hlt⟩ with
        | some b => some (⟨i, hlt⟩, b)
        | none => scanAux h fuel (i + 1)
      else none

def scan16 {β : Type} (h : Fin 16 → Option β) : Option (Fin 16 × β) :=
  scanAux h 16 0

/-- Modelled from the spec: lowest clear bit of `bits` among `0..15`
(`mptcp_find_free_index`). -/
def mptcp_find_free_index (bits : Nat) : Option (Fin 16) :=
  (scan16 (fun i => if bits.testBit i.val then none else some ())).map Prod.fst

/-! ### `mptcp_v4_add_raddress` / `mptcp_v6_add_raddress`

The two functions differ in one test only: inside the scan over populated
slots, after the exact `(id, addr, port)` duplicate test, the v4 code takes
the NAT-update branch when `rem4->id == id && rem4->addr.s_addr != addr`,
while the v6 code takes it already when `rem6->id == id`.  The flag
`checkAddr` selects the v4 behaviour (`true`) or the v6 behaviour
(`false`).  The per-slot outcome is `some true` for the exact-duplicate
return, `some false` for the NAT-update branch and `none` when the loop
moves on. -/

def slotHit (checkAddr : Bool) (r : mptcp_rem) (a p id : Nat) : Option Bool :=
  if r.id = id ∧ r.addr = a ∧ r.port = p then some true
  else if r.id = id ∧ (checkAddr = true → r.addr ≠ a) then some false
  else none

def stateHit (checkAddr : Bool) (s : mptcp_rem_family) (a p id : Nat) (i : Fin 16) :
    Option Bool :=
  if s.bits.testBit i.val then slotHit checkAddr (s.slots i) a p id else none

/-- The in-place NAT update of slot `i` (`rem4->addr.s_addr = ...;
rem4->port = port; mopt->list_rcvd = 1`). -/
def natUpdate (s : mptcp_rem_family) (i : Fin 16) (a p : Nat) : mptcp_rem_family :=
  { s with
    slots := Function.update s.slots i { s.slots i with addr := a, port := p }
    list_rcvd := true }

/-- Population of free slot `i` (`rem->addr = addr; rem->port = port;
rem->bitfield = 0; rem->retry_bitfield = 0; rem->id = id;
mopt->list_rcvd = 1; mopt->rem_bits |= (1 << i)`). -/
def allocSlot (s : mptcp_rem_family) (i : Fin 16) (a p id : Nat) : mptcp_rem_family :=
  { s with
    slots := Function.update s.slots i ⟨a, p, id, 0, 0⟩
    bits := s.bits ||| (1 <<< i.val)
    list_rcvd := true }

def add_raddress (checkAddr : Bool) (s : mptcp_rem_family) (a p id : Nat) :
    Int × mptcp_rem_family :=
  match scan16 (stateHit checkAddr s a p id) with
  | some (_, true) => (0, s)
  | some (i, false) => (0, natUpdate s i a p)
  | none =>
      match mptcp_find_free_index s.bits with
      | some i => (0, allocSlot s i a p id)
      | none => (-1, s)

/-- `mptcp_v4_add_raddress` (lines 232–285). -/
def mptcp_v4_add_raddress (s : mptcp_rem_family) (a p id : Nat) : Int × mptcp_rem_family :=
  add_raddress true s a p id

/-- `mptcp_v6_add_raddress` (lines 435–488). -/
def mptcp_v6_add_raddress (s : mptcp_rem_family) (a p id : Nat) : Int × mptcp_rem_family :=
  add_raddress false s a p id

/-- Clearing one bit of a bitfield (`b &= ~(1 << i)`); written without a
complement, extensionally equal to the C expression on every `Nat`. -/
def clearBit (b i : Nat) : Nat := if b.testBit i then b ^^^ (1 <<< i) else b

/-- `mptcp_v4_rem_raddress` / `mptcp_v6_rem_raddress` (lines 208–225 resp.
413–430): scan populated slots in increasing index order, clear the bit of
the first slot whose `id` matches; `-1` when none does.  The slot contents
and `list_rcvd` are untouched. -/
def rem_raddress (s : mptcp_rem_family) (id : Nat) : Int × mptcp_rem_family :=
  match scan16 (fun i =>
      if s.bits.testBit i.val ∧ (s.slots i).id = id then some () else none) with
  | some (i, _) => (0, { s with bits := clearBit s.bits i.val })
  | none => (-1, s)

def mptcp_v4_rem_raddress (s : mptcp_rem_family) (id : Nat) : Int × mptcp_rem_family :=
  rem_raddress s id

def mptcp_v6_rem_raddress (s : mptcp_rem_family) (id : Nat) : Int × mptcp_rem_family :=
  rem_raddress s id

/-- States of one family's remote registry reachable from the empty registry
by `add_raddress` and `rem_raddress` calls (`checkAddr = true` for the v4
functions, `false` for the v6 ones). -/
inductive RemReachable (checkAddr : Bool) : mptcp_rem_family → Prop
  | empty : RemReachable checkAddr emptyRemFamily
  | add (s : mptcp_rem_family) (a p id : Nat) :
      RemReachable checkAddr s → RemReachable checkAddr (add_raddress checkAddr s a p id).2
  | rem (s : mptcp_rem_family) (id : Nat) :
      RemReachable checkAddr s → RemReachable checkAddr (rem_raddress s id).2

/-! ## Fast processing of SYN + MP_JOIN (`mptcp_v4_do_rcv_join_syn`)

Lines 304–341 (the `CONFIG_TCP_MD5SIG` block is compiled out in this
embedding).  The handler either sends a reset (`tcp_v4_send_reset`) or
builds a request through `mptcp_v4_join_request_short`; the registry is
threaded through explicitly. -/

inductive JoinSynOut where
  | reset
  | request (req : mptcp_request_sock)
deriving DecidableEq

def mptcp_v4_do_rcv_join_syn (sk_state : Nat) (inside_tk_table : Bool)
    (mpcb : mptcp_cb_keys) (rx_opt : mptcp_rem_family) (saddr : Nat)
    (tmp_opt : tcp_options_received) (loc_nonce : List Nat) :
    JoinSynOut × mptcp_rem_family :=
  if sk_state = TCP_CLOSE ∨ inside_tk_table = false then (.reset, rx_opt)
  else
    let r := mptcp_v4_add_raddress rx_opt saddr 0 tmp_opt.mpj_addr_id
    if r.1 < 0 then (.reset, r.2)
    else (.request (mptcp_v4_join_request_short mpcb tmp_opt loc_nonce),
          { r.2 with list_rcvd := false })

/-- `mptcp_v6_do_rcv_join_syn` (lines 507–537), same shape. -/
def mptcp_v6_do_rcv_join_syn (sk_state : Nat) (inside_tk_table : Bool)
    (mpcb : mptcp_cb_keys) (rx_opt : mptcp_rem_family) (saddr : Nat)
    (tmp_opt : tcp_options_received) (loc_nonce : List Nat) :
    JoinSynOut × mptcp_rem_family :=
  if sk_state = TCP_CLOSE ∨ inside_tk_table = false then (.reset, rx_opt)
  else
    let r := mptcp_v6_add_raddress rx_opt saddr 0 tmp_opt.mpj_addr_id
    if r.1 < 0 then (.reset, r.2)
    else (.request (mptcp_v6_join_request_short mpcb tmp_opt loc_nonce),
          { r.2 with list_rcvd := false })

/-! ## The global request table (`mptcp_reqsk_htb`)

A bucket array indexed by the SYN-queue hash of the remote address and
port.  The hash itself (`inet_synq_hash` / `inet6_synq_hash`) is kernel
code outside this repository. -/

/-- Modelled from the spec: the SYN-queue hash is a function of the remote
address and the remote port, reduced modulo `HASH_SIZE`.  The claims depend
only on insertion and lookup using the same function; the mixing constants
are immaterial. -/
def inet_synq_hash (raddr rport : Nat) : Nat :=
  (raddr * 2654435761 + rport * 2246822519) % MPTCP_HASH_SIZE

/-- Modelled from the spec, like `inet_synq_hash`, for 128-bit addresses. -/
def inet6_synq_hash (raddr rport : Nat) : Nat :=
  (raddr * 2654435761 + raddr / 4294967296 + rport * 2246822519) % MPTCP_HASH_SIZE

/-- An entry of a collide-tuple list: the fields of an
`mptcp_request_sock` that `mptcp_v4_search_req` / `mptcp_v6_search_req`
compare, plus the owning meta socket (as an identifier into the refcount
environment).  `family` is `rsk_ops->family`. -/
structure mptcp_request_entry where
  rmt_port : Nat
  rmt_addr : Nat
  loc_addr : Nat
  family : Nat
  meta : Nat
deriving DecidableEq

def reqMatches4 (rport raddr laddr : Nat) (m : mptcp_request_entry) : Bool :=
  m.rmt_port == rport && m.rmt_addr == raddr && m.loc_addr == laddr && m.family == AF_INET

def reqMatches6 (rport raddr laddr : Nat) (m : mptcp_request_entry) : Bool :=
  m.rmt_port == rport && m.family == AF_INET6 && m.rmt_addr == raddr && m.loc_addr == laddr

/-- The `list_for_each_entry` walk of one bucket in `mptcp_v4_search_req`. -/
def searchLoop (pmatch : mptcp_request_entry → Bool) :
    List mptcp_request_entry → Option mptcp_request_entry
  | [] => none
  | m :: rest => if pmatch m then some m else searchLoop pmatch rest

/-- `mptcp_v4_search_req` (lines 437–464): scan the bucket
`inet_synq_hash(raddr, rport)`, return the meta socket of the first entry
whose remote port, remote address, local address and family match, after
`sock_hold` on it (modelled as bumping its entry in the refcount
environment). -/
def mptcp_v4_search_req (htb : Nat → List mptcp_request_entry) (refcnt : Nat → Nat)
    (rport raddr laddr : Nat) : Option Nat × (Nat → Nat) :=
  match searchLoop (reqMatches4 rport raddr laddr) (htb (inet_synq_hash raddr rport)) with
  | some m => (some m.meta, fun x => if x = m.meta then refcnt x + 1 else refcnt x)
  | none => (none, refcnt)

/-- `mptcp_v6_search_req` (lines 632–659), same shape over
`inet6_synq_hash`. -/
def mptcp_v6_search_req (htb : Nat → List mptcp_request_entry) (refcnt : Nat → Nat)
    (rport raddr laddr : Nat) : Option Nat × (Nat → Nat) :=
  match searchLoop (reqMatches6 rport raddr laddr) (htb (inet6_synq_hash raddr rport)) with
  | some m => (some m.meta, fun x => if x = m.meta then refcnt x + 1 else refcnt x)
  | none => (none, refcnt)

/-- `mptcp_v4_reqsk_queue_hash_add` (lines 63–76): `list_add` of the
request into bucket `inet_synq_hash(rmt_addr, rmt_port)` (prepend). -/
def mptcp_v4_reqsk_queue_hash_add (htb : Nat → List mptcp_request_entry)
    (req : mptcp_request_entry) : Nat → List mptcp_request_entry :=
  fun b => if b = inet_synq_hash req.rmt_addr req.rmt_port then req :: htb b else htb b

/-- `mptcp_v6_reqsk_queue_hash_add` (lines 78–91). -/
def mptcp_v6_reqsk_queue_hash_add (htb : Nat → List mptcp_request_entry)
    (req : mptcp_request_entry) : Nat → List mptcp_request_entry :=
  fun b => if b = inet6_synq_hash req.rmt_addr req.rmt_port then req :: htb b else htb b

/-! ## SYN-ACK retransmission dispatch (`rtx_syn_ack`)

`mptcp_request_sock_ops` (v4 requests, lines 52–61) binds `rtx_syn_ack` to
the plain `tcp_v4_rtx_synack`; `mptcp6_request_sock_ops` (v6 requests,
lines 67–76) binds it to `mptcp_v6_rtx_synack` (lines 56–65), which
dispatches on the meta socket's family.  The external transmit routines
are modelled as labels; `inc_retranssegs` records the explicit
`TCP_INC_STATS_BH(TCP_MIB_RETRANSSEGS)` performed by this repository's
code. -/

inductive SynackXmit where
  | tcp_v4_rtx_synack
  | tcp_v6_rtx_synack
  | mptcp_v6v4_send_synack
deriving DecidableEq

structure RtxOutcome where
  xmit : SynackXmit
  inc_retranssegs : Bool
deriving DecidableEq

/-- `mptcp_v6_rtx_synack` (lines 56–65). -/
def mptcp_v6_rtx_synack (meta_sk_family : Nat) : RtxOutcome :=
  if meta_sk_family = AF_INET6 then ⟨.tcp_v6_rtx_synack, false⟩
  else ⟨.mptcp_v6v4_send_synack, true⟩

/-- The `rtx_syn_ack` member of `mptcp_request_sock_ops` (line 56):
`tcp_v4_rtx_synack`, independent of the meta socket's family. -/
def mptcp_request_sock_ops_rtx_syn_ack (_meta_sk_family : Nat) : RtxOutcome :=
  ⟨.tcp_v4_rtx_synack, false⟩

/-- The `rtx_syn_ack` member of `mptcp6_request_sock_ops` (line 71). -/
def mptcp6_request_sock_ops_rtx_syn_ack (meta_sk_family : Nat) : RtxOutcome :=
  mptcp_v6_rtx_synack meta_sk_family

/-! ## Local addresses, subflows and the address-event handlers

`mptcp_pm_addr4_event_handler` (lines 598–668) and
`mptcp_pm_addr6_event_handler` (lines 852–927).  The external callouts
(`mptcp_v4_send_add_addr` writes per-subflow advertisement bitmaps, which
are embedded; `mptcp_create_subflows`, `mptcp_select_ack_sock` +
`tcp_send_ack`, `mptcp_reinject_data` and `mptcp_sub_force_close` are
recorded as actions or flags on the subflow). -/

structure mptcp_loc4 where
  addr : Nat
  id : Nat
  low_prio : Bool
deriving DecidableEq

structure mptcp_loc6 where
  addr : Nat
  id : Nat
  low_prio : Bool
deriving DecidableEq

/-- The per-subflow fields the event handlers touch.  `closed` records
`mptcp_sub_force_close`, `reinjected` records `mptcp_reinject_data`;
`add_addr4`/`add_addr6` are the pending-advertisement bitmaps written by
`mptcp_v4_send_add_addr`/`mptcp_v6_send_add_addr`. -/
structure SubflowSock where
  family : Nat
  saddr : Nat
  low_prio : Bool
  send_mp_prio : Bool
  closed : Bool
  reinjected : Bool
  add_addr4 : Nat
  add_addr6 : Nat
deriving DecidableEq

/-- The fields of `struct mptcp_cb` the event handlers touch; `rx_opt4` and
`rx_opt6` are the two family views of `mpcb->rx_opt`. -/
structure mptcp_cb_pm where
  loc4_bits : Nat
  addr4 : Fin 16 → mptcp_loc4
  next_v4_index : Nat
  loc6_bits : Nat
  addr6 : Fin 16 → mptcp_loc6
  next_v6_index : Nat
  remove_addrs : Nat
  rx_opt4 : mptcp_rem_family
  rx_opt6 : mptcp_rem_family
  subflows : List SubflowSock

inductive NetdevEvent where
  | netdev_up
  | netdev_down
  | netdev_change
deriving DecidableEq

/-- The fields of the notifier payload (`struct in_ifaddr` resp.
`struct inet6_ifaddr`) the handlers read: the address, its scope, the
device flags `IFF_NOMULTIPATH` and `IFF_MPBACKUP`, and `netif_running`. -/
structure ifaddr_event where
  ifa_local : Nat
  ifa_scope : Nat
  nomultipath : Bool
  mpbackup : Bool
  running : Bool
deriving DecidableEq

/-- External callouts the handlers perform. -/
inductive PmAction where
  | create_subflows
  | select_ack_sock_and_send_ack
deriving DecidableEq

/-- Modelled from the spec: `__mptcp_find_free_index(bitfield, 0, base)`
(a header helper) returns a free index preferring indices at or above the
rotating hint `base`, wrapping to lower ones, or failure when all 16 are
taken. -/
def __mptcp_find_free_index (bits : Nat) (base : Nat) : Option (Fin 16) :=
  match scan16 (fun i => if ¬ bits.testBit i.val ∧ base ≤ i.val then some () else none) with
  | some (i, _) => some i
  | none => (scan16 (fun i => if bits.testBit i.val then none else some ())).map Prod.fst

/-- The body a v4 subflow receives in the `found` loop of
`mptcp_pm_addr4_event_handler` (lines 638–654). -/
def subflowReact4 (ifa : ifaddr_event) (event : NetdevEvent) (sk : SubflowSock) :
    SubflowSock :=
  if sk.family ≠ AF_INET ∨ sk.saddr ≠ ifa.ifa_local then sk
  else match event with
    | .netdev_down => { sk with reinjected := true, closed := true }
    | .netdev_change =>
        let new_low_prio := ifa.mpbackup
        { sk with
          send_mp_prio := if new_low_prio ≠ sk.low_prio then true else sk.send_mp_prio
          low_prio := new_low_prio }
    | .netdev_up => sk

/-- `mptcp_pm_addr4_event_handler` (lines 598–668). -/
def mptcp_pm_addr4_event_handler (ifa : ifaddr_event) (event : NetdevEvent)
    (mpcb : mptcp_cb_pm) : mptcp_cb_pm × List PmAction :=
  if RT_SCOPE_LINK < ifa.ifa_scope ∨ ifa.nomultipath = true then (mpcb, [])
  else
    match scan16 (fun i =>
        if mpcb.loc4_bits.testBit i.val ∧ (mpcb.addr4 i).addr = ifa.ifa_local
        then some () else none) with
    | none =>
        if (event = .netdev_up ∨ event = .netdev_change) ∧ ifa.running = true then
          match __mptcp_find_free_index mpcb.loc4_bits mpcb.next_v4_index with
          | none => (mpcb, [])
          | some i =>
              ({ mpcb with
                  addr4 := Function.update mpcb.addr4 i
                    { mpcb.addr4 i with addr := ifa.ifa_local, id := i.val }
                  loc4_bits := mpcb.loc4_bits ||| (1 <<< i.val)
                  next_v4_index := i.val + 1
                  subflows := mpcb.subflows.map (fun sk =>
                    { sk with add_addr4 := sk.add_addr4 ||| (1 <<< i.val) }) },
               [.create_subflows])
        else (mpcb, [])
    | some (i, _) =>
        let subs := mpcb.subflows.map (subflowReact4 ifa event)
        if event = .netdev_down then
          let newbits := clearBit mpcb.loc4_bits i.val
          ({ mpcb with
              subflows := subs
              loc4_bits := newbits
              remove_addrs := mpcb.remove_addrs ||| (1 <<< (mpcb.addr4 i).id)
              rx_opt4 := { mpcb.rx_opt4 with
                slots := fun j =>
                  if mpcb.rx_opt4.bits.testBit j.val then
                    { mpcb.rx_opt4.slots j with
                      bitfield := (mpcb.rx_opt4.slots j).bitfield &&& newbits }
                  else mpcb.rx_opt4.slots j } },
           [.select_ack_sock_and_send_ack])
        else ({ mpcb with subflows := subs }, [])

/-- The body a v6 subflow receives in the `found` loop of
`mptcp_pm_addr6_event_handler` (lines 897–913). -/
def subflowReact6 (ifa : ifaddr_event) (event : NetdevEvent) (sk : SubflowSock) :
    SubflowSock :=
  if sk.family ≠ AF_INET6 ∨ sk.saddr ≠ ifa.ifa_local then sk
  else match event with
    | .netdev_down => { sk with reinjected := true, closed := true }
    | .netdev_change =>
        let new_low_prio := ifa.mpbackup
        { sk with
          send_mp_prio := if new_low_prio ≠ sk.low_prio then true else sk.send_mp_prio
          low_prio := new_low_prio }
    | .netdev_up => sk

/-- The address-type test of `mptcp_pm_addr6_event_handler` (lines 857–865):
ANY, loopback and link-local addresses are rejected.  `ipv6_addr_type` is
kernel code; the three predicates are modelled on the 128-bit address value
(`::` is 0, `::1` is 1, and link-local means the top 10 bits are
`1111111010`, i.e. `fe80::/10`, extracted by dividing by `2^118`). -/
def ipv6AddrRejected (a : Nat) : Bool :=
  a = 0 || a = 1 || a / 332306998946228968225951765070086144 = 1018

/-- `mptcp_pm_addr6_event_handler` (lines 852–927). -/
def mptcp_pm_addr6_event_handler (ifa : ifaddr_event) (event : NetdevEvent)
    (mpcb : mptcp_cb_pm) : mptcp_cb_pm × List PmAction :=
  if RT_SCOPE_LINK < ifa.ifa_scope ∨ ifa.nomultipath = true ∨
      ipv6AddrRejected ifa.ifa_local = true then (mpcb, [])
  else
    match scan16 (fun i =>
        if mpcb.loc6_bits.testBit i.val ∧ (mpcb.addr6 i).addr = ifa.ifa_local
        then some () else none) with
    | none =>
        if (event = .netdev_up ∨ event = .netdev_change) ∧ ifa.running = true then
          match __mptcp_find_free_index mpcb.loc6_bits mpcb.next_v6_index with
          | none => (mpcb, [])
          | some i =>
              ({ mpcb with
                  addr6 := Function.update mpcb.addr6 i
                    { mpcb.addr6 i with addr := ifa.ifa_local, id := i.val + MPTCP_MAX_ADDR }
                  loc6_bits := mpcb.loc6_bits ||| (1 <<< i.val)
                  next_v6_index := i.val + 1
                  subflows := mpcb.subflows.map (fun sk =>
                    { sk with add_addr6 := sk.add_addr6 ||| (1 <<< i.val) }) },
               [.create_subflows])
        else (mpcb, [])
    | some (i, _) =>
        let subs := mpcb.subflows.map (subflowReact6 ifa event)
        if event = .netdev_down then
          let newbits := clearBit mpcb.loc6_bits i.val
          ({ mpcb with
              subflows := subs
              loc6_bits := newbits
              remove_addrs := mpcb.remove_addrs ||| (1 <<< (mpcb.addr6 i).id)
              rx_opt6 := { mpcb.rx_opt6 with
                slots := fun j =>
                  if mpcb.rx_opt6.bits.testBit j.val then
                    { mpcb.rx_opt6.slots j with
                      bitfield := (mpcb.rx_opt6.slots j).bitfield &&& newbits }
                  else mpcb.rx_opt6.slots j } },
           [.select_ack_sock_and_send_ack])
        else ({ mpcb with subflows := subs }, [])

/-! ## Subflow creation (`mptcp_init4_subsockets`, `mptcp_init6_subsockets`)

The socket plumbing (`inet_create`, `mptcp_add_sock`, `bind`, `connect`)
is external; its return codes are inputs.  What the two functions do to
the remote slot is the first statement: `rem->bitfield |= ...`, executed
before any of the fallible steps. -/

structure SubsockEnv where
  inet_create_ret : Int
  mptcp_add_sock_fails : Bool
  bind_ret : Int
  connect_ret : Int
deriving DecidableEq

/-- `-EINPROGRESS`. -/
def EINPROGRESS : Int := 115

/-- `mptcp_init4_subsockets` (lines 470–555): sets
`rem->bitfield |= (1 << loc->id)` first (line 480, "Don't try again - even
if it fails"), then creates, binds and connects the socket. -/
def mptcp_init4_subsockets (loc : mptcp_loc4) (rem : mptcp_rem) (env : SubsockEnv) :
    Int × mptcp_rem :=
  let rem2 := { rem with bitfield := rem.bitfield ||| (1 <<< loc.id) }
  if env.inet_create_ret < 0 then (env.inet_create_ret, rem2)
  else if env.mptcp_add_sock_fails = true then (env.inet_create_ret, rem2)
  else if env.bind_ret < 0 then (env.bind_ret, rem2)
  else if env.connect_ret < 0 ∧ env.connect_ret ≠ -EINPROGRESS then (env.connect_ret, rem2)
  else (0, rem2)

/-- `mptcp_init6_subsockets` (lines 665–753): sets
`rem->bitfield |= (1 << (loc->id - min(loc->id, MPTCP_MAX_ADDR)))` first
(line 678), then creates, binds and connects the socket. -/
def mptcp_init6_subsockets (loc : mptcp_loc6) (rem : mptcp_rem) (env : SubsockEnv) :
    Int × mptcp_rem :=
  let rem2 := { rem with
    bitfield := rem.bitfield ||| (1 <<< (loc.id - min loc.id MPTCP_MAX_ADDR)) }
  if env.inet_create_ret < 0 then (env.inet_create_ret, rem2)
  else if env.mptcp_add_sock_fails = true then (env.inet_create_ret, rem2)
  else if env.bind_ret < 0 then (env.bind_ret, rem2)
  else if env.connect_ret < 0 ∧ env.connect_ret ≠ -EINPROGRESS then (env.connect_ret, rem2)
  else (0, rem2)

/-! ## First-hit characterization of the slot scan -/

theorem scanAux_eq_some {β : Type} {h : Fin 16 → Option β} :
    ∀ {fuel i : Nat} {k : Fin 16} {b : β}, scanAux h fuel i = some (k, b) →
      i ≤ k.val ∧ h k = some b ∧ ∀ j : Fin 16, i ≤ j.val → j < k → h j = none := by
  intro fuel
  induction fuel with
  | zero => intro i k b hs; simp [scanAux] at hs
  | succ n ih =>
    intro i k b hs
    unfold scanAux at hs
    by_cases hlt : i < 16
    · simp only [dif_pos hlt] at hs
      cases hh : h ⟨i, hlt⟩ with
      | some b2 =>
        rw [hh] at hs
        simp only [Option.some.injEq, Prod.mk.injEq] at hs
        obtain ⟨hk, hb⟩ := hs
        subst hk; subst hb
        refine ⟨le_refl _, hh, ?_⟩
        intro j hij hjk
        exact absurd (lt_of_le_of_lt hij hjk) (lt_irrefl i)
      | none =>
        rw [hh] at hs
        obtain ⟨h1, h2, h3⟩ := ih hs
        refine ⟨le_trans (Nat.le_succ i) h1, h2, ?_⟩
        intro j hij hjk
        rcases Nat.eq_or_lt_of_le hij with heq | hlt2
        · have : j = ⟨i, hlt⟩ := Fin.ext heq.symm
          rw [this]; exact hh
        · exact h3 j hlt2 hjk
    · simp only [dif_neg hlt] at hs
      exact absurd hs (by simp)

theorem scanAux_eq_none {β : Type} {h : Fin 16 → Option β} :
    ∀ {fuel i : Nat}, scanAux h fuel i = none →
      ∀ j : Fin 16, i ≤ j.val → j.val < i + fuel → h j = none := by
  intro fuel
  induction fuel with
  | zero => intro i _ j hij hjf; omega
  | succ n ih =>
    intro i hs j hij hjf
    unfold scanAux at hs
    by_cases hlt : i < 16
    · simp only [dif_pos hlt] at hs
      cases hh : h ⟨i, hlt⟩ with
      | some b2 => rw [hh] at hs; exact absurd hs (by simp)
      | none =>
        rw [hh] at hs
        rcases Nat.eq_or_lt_of_le hij with heq | hlt2
        · have : j = ⟨i, hlt⟩ := Fin.ext heq.symm
          rw [this]; exact hh
        · exact ih hs j hlt2 (by omega)
    · exact absurd (lt_of_le_of_lt hij j.isLt) (by omega)

theorem scanAux_some_intro {β : Type} {h : Fin 16 → Option β} :
    ∀ {fuel i : Nat} (k : Fin 16) (b : β), i ≤ k.val → k.val < i + fuel →
      h k = some b → (∀ j : Fin 16, i ≤ j.val → j < k → h j = none) →
      scanAux h fuel i = some (k, b) := by
  intro fuel
  induction fuel with
  | zero => intro i k b h1 h2 _ _; omega
  | succ n ih =>
    intro i k b h1 h2 hk hbefore
    have hlt : i < 16 := lt_of_le_of_lt h1 k.isLt
    unfold scanAux
    simp only [dif_pos hlt]
    rcases Nat.eq_or_lt_of_le h1 with heq | hlt2
    · have hki : (⟨i, hlt⟩ : Fin 16) = k := Fin.ext heq
      rw [hki, hk]
    · have hnone : h ⟨i, hlt⟩ = none := hbefore ⟨i, hlt⟩ (le_refl i) hlt2
      rw [hnone]
      exact ih k b hlt2 (by omega) hk (fun j hj hjk => hbefore j (le_trans (Nat.le_succ i) hj) hjk)

theorem scan16_eq_some {β : Type} {h : Fin 16 → Option β} {k : Fin 16} {b : β}
    (hs : scan16 h = some (k, b)) :
    h k = some b ∧ ∀ j : Fin 16, j < k → h j = none := by
  obtain ⟨_, h2, h3⟩ := scanAux_eq_some hs
  exact ⟨h2, fun j hjk => h3 j (Nat.zero_le _) hjk⟩

theorem scan16_eq_none {β : Type} {h : Fin 16 → Option β} (hs : scan16 h = none) :
    ∀ j : Fin 16, h j = none :=
  fun j => scanAux_eq_none hs j (Nat.zero_le _) (by omega)

theorem scan16_some_intro {β : Type} {h : Fin 16 → Option β} (k : Fin 16) (b : β)
    (hk : h k = some b) (hbefore : ∀ j : Fin 16, j < k → h j = none) :
    scan16 h = some (k, b) :=
  scanAux_some_intro k b (Nat.zero_le _) (by omega) hk (fun j _ hjk => hbefore j hjk)

/-! ## Bitfield helper lemmas -/

theorem testBit_setBit {b i j : Nat} :
    (b ||| (1 <<< i)).testBit j = if j = i then true else b.testBit j := by
  rw [Nat.testBit_lor, Nat.one_shiftLeft]
  by_cases hj : j = i
  · subst hj; simp [Nat.testBit_two_pow_self]
  · simp [hj, Nat.testBit_two_pow_of_ne (fun h => hj h.symm)]

theorem testBit_clearBit {b i j : Nat} :
    (clearBit b i).testBit j = if j = i then false else b.testBit j := by
  unfold clearBit
  by_cases hbi : b.testBit i
  · rw [if_pos hbi, Nat.testBit_xor, Nat.one_shiftLeft]
    by_cases hj : j = i
    · subst hj; simp [hbi, Nat.testBit_two_pow_self]
    · simp [hj, Nat.testBit_two_pow_of_ne (fun h => hj h.symm)]
  · rw [if_neg hbi]
    by_cases hj : j = i
    · subst hj; simp [hbi]
    · simp [hj]

/-! ## Per-slot outcome lemmas -/

theorem slotHit_exact {c : Bool} {r : mptcp_rem} {a p id : Nat}
    (h : r.id = id ∧ r.addr = a ∧ r.port = p) : slotHit c r a p id = some true := by
  simp [slotHit, h]

theorem slotHit_of_id_ne {c : Bool} {r : mptcp_rem} {a p id : Nat} (h : r.id ≠ id) :
    slotHit c r a p id = none := by
  simp [slotHit, h]

theorem slotHit_nat_v4 {r : mptcp_rem} {a p id : Nat} (hid : r.id = id)
    (haddr : r.addr ≠ a) : slotHit true r a p id = some false := by
  simp [slotHit, hid, haddr]

theorem slotHit_nat_v6 {r : mptcp_rem} {a p id : Nat} (hid : r.id = id)
    (hne : ¬(r.addr = a ∧ r.port = p)) : slotHit false r a p id = some false := by
  have h1 : ¬(r.id = id ∧ r.addr = a ∧ r.port = p) := by
    rintro ⟨_, h2, h3⟩; exact hne ⟨h2, h3⟩
  unfold slotHit
  rw [if_neg h1, if_pos ⟨hid, fun hft => absurd hft (by simp)⟩]

theorem slotHit_skip_v4 {r : mptcp_rem} {a p id : Nat}
    (h1 : ¬(r.id = id ∧ r.addr = a ∧ r.port = p)) (h2 : r.id = id → r.addr = a) :
    slotHit true r a p id = none := by
  unfold slotHit
  rw [if_neg h1, if_neg]
  rintro ⟨hid, hn⟩
  exact hn rfl (h2 hid)

theorem slotHit_eq_some_false_id {c : Bool} {r : mptcp_rem} {a p id : Nat}
    (h : slotHit c r a p id = some false) : r.id = id := by
  unfold slotHit at h
  by_cases h1 : r.id = id ∧ r.addr = a ∧ r.port = p
  · exact h1.1
  · rw [if_neg h1] at h
    by_cases h2 : r.id = id ∧ (c = true → r.addr ≠ a)
    · exact h2.1
    · rw [if_neg h2] at h; exact absurd h (by simp)

theorem slotHit_eq_some_false_v4_addr {r : mptcp_rem} {a p id : Nat}
    (h : slotHit true r a p id = some false) : r.addr ≠ a := by
  unfold slotHit at h
  by_cases h1 : r.id = id ∧ r.addr = a ∧ r.port = p
  · rw [if_pos h1] at h; exact absurd h (by simp)
  · rw [if_neg h1] at h
    by_cases h2 : r.id = id ∧ (true = true → r.addr ≠ a)
    · exact h2.2 rfl
    · rw [if_neg h2] at h; exact absurd h (by simp)

theorem stateHit_populated {c : Bool} {s : mptcp_rem_family} {a p id : Nat} {i : Fin 16}
    {b : Bool} (h : stateHit c s a p id i = some b) :
    s.bits.testBit i.val = true ∧ slotHit c (s.slots i) a p id = some b := by
  unfold stateHit at h
  split at h
  · exact ⟨by assumption, h⟩
  · simp at h

theorem scan16_none_intro {β : Type} {h : Fin 16 → Option β}
    (hall : ∀ j : Fin 16, h j = none) : scan16 h = none := by
  have aux : ∀ (fuel i : Nat), scanAux h fuel i = none := by
    intro fuel
    induction fuel with
    | zero => intro i; rfl
    | succ n ih =>
      intro i
      unfold scanAux
      by_cases hlt : i < 16
      · simp only [dif_pos hlt, hall ⟨i, hlt⟩]
        exact ih (i + 1)
      · simp only [dif_neg hlt]
  exact aux 16 0

theorem find_free_index_eq_some {bits : Nat} {i : Fin 16}
    (h : mptcp_find_free_index bits = some i) : bits.testBit i.val = false := by
  unfold mptcp_find_free_index at h
  cases hs : scan16 (fun j : Fin 16 => if bits.testBit j.val then none else some ()) with
  | none => rw [hs] at h; simp at h
  | some v =>
    rw [hs] at h
    obtain ⟨k, u⟩ := v
    rw [Option.map_some'] at h
    rw [Option.some.injEq] at h
    subst h
    obtain ⟨hk, _⟩ := scan16_eq_some hs
    by_cases hb : bits.testBit k.val
    · rw [if_pos hb] at hk; exact absurd hk (by simp)
    · simpa using hb

theorem find_free_index_full {bits : Nat}
    (hfull : ∀ j : Fin 16, bits.testBit j.val = true) :
    mptcp_find_free_index bits = none := by
  unfold mptcp_find_free_index
  rw [scan16_none_intro (fun j => by rw [if_pos (hfull j)])]
  rfl

/-! ## Behaviour of `add_raddress` at the first firing slot -/

theorem add_raddress_nat_update {c : Bool} {s : mptcp_rem_family} {a p id : Nat} {i : Fin 16}
    (hbit : s.bits.testBit i.val = true)
    (hhit : slotHit c (s.slots i) a p id = some false)
    (hbefore : ∀ j : Fin 16, j < i → s.bits.testBit j.val = true →
      slotHit c (s.slots j) a p id = none) :
    add_raddress c s a p id = (0, natUpdate s i a p) := by
  have hscan : scan16 (stateHit c s a p id) = some (i, false) := by
    apply scan16_some_intro
    · unfold stateHit; rw [if_pos hbit]; exact hhit
    · intro j hj
      unfold stateHit
      by_cases hb : s.bits.testBit j.val
      · rw [if_pos hb]; exact hbefore j hj hb
      · rw [if_neg hb]
  unfold add_raddress
  rw [hscan]

theorem add_raddress_dup {c : Bool} {s : mptcp_rem_family} {a p id : Nat} {i : Fin 16}
    (hbit : s.bits.testBit i.val = true)
    (hex : (s.slots i).id = id ∧ (s.slots i).addr = a ∧ (s.slots i).port = p)
    (hbefore : ∀ j : Fin 16, j < i → s.bits.testBit j.val = true →
      slotHit c (s.slots j) a p id ≠ some false) :
    add_raddress c s a p id = (0, s) := by
  cases hscan : scan16 (stateHit c s a p id) with
  | none =>
    have hn := scan16_eq_none hscan i
    unfold stateHit at hn
    rw [if_pos hbit, slotHit_exact hex] at hn
    exact absurd hn (by simp)
  | some v =>
    obtain ⟨k, b⟩ := v
    cases b with
    | true => unfold add_raddress; rw [hscan]
    | false =>
      obtain ⟨hk, hkb⟩ := scan16_eq_some hscan
      have hkpop := stateHit_populated hk
      rcases lt_trichotomy k i with hlt | heq | hgt
      · exact absurd hkpop.2 (hbefore k hlt hkpop.1)
      · subst heq
        rw [slotHit_exact hex] at hkpop
        exact absurd hkpop.2 (by simp)
      · have hni := hkb i hgt
        unfold stateHit at hni
        rw [if_pos hbit, slotHit_exact hex] at hni
        exact absurd hni (by simp)

/-- Calling `add_raddress` twice with the same arguments leaves the state of
the first call unchanged, for either family flavour. -/
theorem add_raddress_twice (c : Bool) (s : mptcp_rem_family) (a p id : Nat) :
    (add_raddress c (add_raddress c s a p id).2 a p id).2 = (add_raddress c s a p id).2 := by
  cases hscan : scan16 (stateHit c s a p id) with
  | some v =>
    obtain ⟨i, b⟩ := v
    cases b with
    | true =>
      have h1 : add_raddress c s a p id = (0, s) := by unfold add_raddress; rw [hscan]
      simp only [h1]
    | false =>
      have h1 : add_raddress c s a p id = (0, natUpdate s i a p) := by
        unfold add_raddress; rw [hscan]
      obtain ⟨hi, hbefore⟩ := scan16_eq_some hscan
      obtain ⟨hbit, hhit⟩ := stateHit_populated hi
      have hid : (s.slots i).id = id := slotHit_eq_some_false_id hhit
      have hslots2i : (natUpdate s i a p).slots i = { s.slots i with addr := a, port := p } :=
        Function.update_same i _ s.slots
      have hex2 : ((natUpdate s i a p).slots i).id = id ∧
          ((natUpdate s i a p).slots i).addr = a ∧ ((natUpdate s i a p).slots i).port = p := by
        rw [hslots2i]; exact ⟨hid, rfl, rfl⟩
      have hbefore2 : ∀ j : Fin 16, j < i → (natUpdate s i a p).bits.testBit j.val = true →
          slotHit c ((natUpdate s i a p).slots j) a p id ≠ some false := by
        intro j hj hb
        have hji : j ≠ i := ne_of_lt hj
        have hsj : (natUpdate s i a p).slots j = s.slots j :=
          Function.update_noteq hji _ s.slots
        rw [hsj]
        have hb2 : s.bits.testBit j.val = true := hb
        have hnone := hbefore j hj
        unfold stateHit at hnone
        rw [if_pos hb2] at hnone
        rw [hnone]
        simp
      have h2 : add_raddress c (natUpdate s i a p) a p id = (0, natUpdate s i a p) :=
        add_raddress_dup hbit hex2 hbefore2
      rw [h1, h2]
  | none =>
    cases hfree : mptcp_find_free_index s.bits with
    | none =>
      have h1 : add_raddress c s a p id = (-1, s) := by
        unfold add_raddress; rw [hscan, hfree]
      simp only [h1]
    | some i =>
      have h1 : add_raddress c s a p id = (0, allocSlot s i a p id) := by
        unfold add_raddress; rw [hscan, hfree]
      have hbit2 : (allocSlot s i a p id).bits.testBit i.val = true := by
        show (s.bits ||| (1 <<< i.val)).testBit i.val = true
        rw [testBit_setBit, if_pos rfl]
      have hslots2i : (allocSlot s i a p id).slots i = ⟨a, p, id, 0, 0⟩ :=
        Function.update_same i _ s.slots
      have hex2 : ((allocSlot s i a p id).slots i).id = id ∧
          ((allocSlot s i a p id).slots i).addr = a ∧
          ((allocSlot s i a p id).slots i).port = p := by
        rw [hslots2i]; exact ⟨rfl, rfl, rfl⟩
      have hbefore2 : ∀ j : Fin 16, j < i → (allocSlot s i a p id).bits.testBit j.val = true →
          slotHit c ((allocSlot s i a p id).slots j) a p id ≠ some false := by
        intro j hj hb
        have hji : j ≠ i := ne_of_lt hj
        have hsj : (allocSlot s i a p id).slots j = s.slots j :=
          Function.update_noteq hji _ s.slots
        have hbj : (allocSlot s i a p id).bits.testBit j.val = s.bits.testBit j.val := by
          show (s.bits ||| (1 <<< i.val)).testBit j.val = s.bits.testBit j.val
          rw [testBit_setBit, if_neg (fun hv => hji (Fin.ext hv))]
        rw [hsj]
        have hnone := scan16_eq_none hscan j
        unfold stateHit at hnone
        rw [if_pos (hbj ▸ hb)] at hnone
        rw [hnone]
        simp
      have h2 : add_raddress c (allocSlot s i a p id) a p id = (0, allocSlot s i a p id) :=
        add_raddress_dup hbit2 hex2 hbefore2
      rw [h1, h2]

/-! ## The v6 distinct-id invariant -/

/-- Among populated slots, the peer-assigned ids are pairwise distinct. -/
def PopulatedIdsDistinct (s : mptcp_rem_family) : Prop :=
  ∀ i j : Fin 16, s.bits.testBit i.val = true → s.bits.testBit j.val = true → i ≠ j →
    (s.slots i).id ≠ (s.slots j).id

theorem add_v6_preserves_distinct {s : mptcp_rem_family} {a p id : Nat}
    (h : PopulatedIdsDistinct s) :
    PopulatedIdsDistinct (add_raddress false s a p id).2 := by
  cases hscan : scan16 (stateHit false s a p id) with
  | some v =>
    obtain ⟨k, b⟩ := v
    cases b with
    | true =>
      have h1 : add_raddress false s a p id = (0, s) := by unfold add_raddress; rw [hscan]
      rw [h1]; exact h
    | false =>
      have h1 : add_raddress false s a p id = (0, natUpdate s k a p) := by
        unfold add_raddress; rw [hscan]
      rw [h1]
      intro i j hbi hbj hij
      have hbi2 : s.bits.testBit i.val = true := hbi
      have hbj2 : s.bits.testBit j.val = true := hbj
      have hidseq : ∀ x : Fin 16, (((0, natUpdate s k a p).2).slots x).id = (s.slots x).id := by
        intro x
        show ((Function.update s.slots k { s.slots k with addr := a, port := p } : Fin 16 → mptcp_rem) x).id = (s.slots x).id
        by_cases hx : x = k
        · subst hx
          rw [Function.update_same x _ s.slots]
        · rw [Function.update_noteq hx _ s.slots]
      rw [hidseq i, hidseq j]
      exact h i j hbi2 hbj2 hij
  | none =>
    cases hfree : mptcp_find_free_index s.bits with
    | none =>
      have h1 : add_raddress false s a p id = (-1, s) := by
        unfold add_raddress; rw [hscan, hfree]
      rw [h1]; exact h
    | some k =>
      have h1 : add_raddress false s a p id = (0, allocSlot s k a p id) := by
        unfold add_raddress; rw [hscan, hfree]
      rw [h1]
      have hnoid : ∀ x : Fin 16, s.bits.testBit x.val = true → (s.slots x).id ≠ id := by
        intro x hbx hidx
        have hn := scan16_eq_none hscan x
        unfold stateHit at hn
        rw [if_pos hbx] at hn
        by_cases hex : (s.slots x).addr = a ∧ (s.slots x).port = p
        · rw [slotHit_exact ⟨hidx, hex.1, hex.2⟩] at hn; exact absurd hn (by simp)
        · rw [slotHit_nat_v6 hidx hex] at hn; exact absurd hn (by simp)
      have hpop : ∀ x : Fin 16, (allocSlot s k a p id).bits.testBit x.val = true → x ≠ k →
          s.bits.testBit x.val = true := by
        intro x hbx hxk
        have : (s.bits ||| (1 <<< k.val)).testBit x.val = true := hbx
        rw [testBit_setBit, if_neg (fun hv => hxk (Fin.ext hv))] at this
        exact this
      have hslotk : (allocSlot s k a p id).slots k = ⟨a, p, id, 0, 0⟩ :=
        Function.update_same k _ s.slots
      have hslotold : ∀ x : Fin 16, x ≠ k → (allocSlot s k a p id).slots x = s.slots x :=
        fun x hx => Function.update_noteq hx _ s.slots
      intro i j hbi hbj hij
      by_cases hik : i = k
      · subst hik
        have hjk : j ≠ i := fun hv => hij hv.symm
        rw [hslotk, hslotold j hjk]
        exact fun hv => hnoid j (hpop j hbj hjk) hv.symm
      · by_cases hjk : j = k
        · subst hjk
          rw [hslotk, hslotold i hik]
          exact hnoid i (hpop i hbi hik)
        · rw [hslotold i hik, hslotold j hjk]
          exact h i j (hpop i hbi hik) (hpop j hbj hjk) hij

theorem rem_preserves_distinct {s : mptcp_rem_family} {id : Nat}
    (h : PopulatedIdsDistinct s) : PopulatedIdsDistinct (rem_raddress s id).2 := by
  unfold rem_raddress
  cases hscan : scan16 (fun i : Fin 16 =>
      if s.bits.testBit i.val ∧ (s.slots i).id = id then some () else none) with
  | none => exact h
  | some v =>
    obtain ⟨k, u⟩ := v
    intro i j hbi hbj hij
    have hbi2 : s.bits.testBit i.val = true := by
      have hb : (clearBit s.bits k.val).testBit i.val = true := hbi
      rw [testBit_clearBit] at hb
      by_cases hik : i.val = k.val
      · rw [if_pos hik] at hb; exact absurd hb (by simp)
      · rw [if_neg hik] at hb; exact hb
    have hbj2 : s.bits.testBit j.val = true := by
      have hb : (clearBit s.bits k.val).testBit j.val = true := hbj
      rw [testBit_clearBit] at hb
      by_cases hjk : j.val = k.val
      · rw [if_pos hjk] at hb; exact absurd hb (by simp)
      · rw [if_neg hjk] at hb; exact hb
    exact h i j hbi2 hbj2 hij

theorem reachable_v6_distinct {s : mptcp_rem_family} (h : RemReachable false s) :
    PopulatedIdsDistinct s := by
  induction h with
  | empty =>
    intro i j hbi _ _
    simp [emptyRemFamily] at hbi
  | add s a p id _ ih => exact add_v6_preserves_distinct ih
  | rem s id _ ih => exact rem_preserves_distinct ih

/-! # Claim theorems -/

/-- C1: for every JOIN request created by the common request-creation routine
(v4 or v6), the stored truncated MAC equals the first 8 bytes of the
HMAC-SHA1 digest computed with the 16-byte key `local_key || remote_key`
over the 4+4-byte message `local_nonce || remote_nonce`, where the keys are
copied from the meta-connection and the local nonce is the freshly drawn
random value stored in the same request. -/
theorem C1_join_request_truncated_mac (mpcb : mptcp_cb_keys)
    (tmp_opt : tcp_options_received) (loc_nonce : List Nat) :
    ((mptcp_v4_join_request_short mpcb tmp_opt loc_nonce).mptcp_hash_tmac =
      (hmacSha1
        ((mptcp_v4_join_request_short mpcb tmp_opt loc_nonce).mptcp_loc_key ++
         (mptcp_v4_join_request_short mpcb tmp_opt loc_nonce).mptcp_rem_key)
        ((mptcp_v4_join_request_short mpcb tmp_opt loc_nonce).mptcp_loc_nonce ++
         (mptcp_v4_join_request_short mpcb tmp_opt loc_nonce).mptcp_rem_nonce)).take 8)
    ∧ (mptcp_v4_join_request_short mpcb tmp_opt loc_nonce).mptcp_loc_key = mpcb.mptcp_loc_key
    ∧ (mptcp_v4_join_request_short mpcb tmp_opt loc_nonce).mptcp_rem_key = mpcb.mptcp_rem_key
    ∧ (mptcp_v4_join_request_short mpcb tmp_opt loc_nonce).mptcp_loc_nonce = loc_nonce
    ∧ (mptcp_v4_join_request_short mpcb tmp_opt loc_nonce).mptcp_rem_nonce =
        tmp_opt.mptcp_recv_nonce
    ∧ ((mptcp_v6_join_request_short mpcb tmp_opt loc_nonce).mptcp_hash_tmac =
      (hmacSha1
        ((mptcp_v6_join_request_short mpcb tmp_opt loc_nonce).mptcp_loc_key ++
         (mptcp_v6_join_request_short mpcb tmp_opt loc_nonce).mptcp_rem_key)
        ((mptcp_v6_join_request_short mpcb tmp_opt loc_nonce).mptcp_loc_nonce ++
         (mptcp_v6_join_request_short mpcb tmp_opt loc_nonce).mptcp_rem_nonce)).take 8)
    ∧ (mptcp_v6_join_request_short mpcb tmp_opt loc_nonce).mptcp_loc_key = mpcb.mptcp_loc_key
    ∧ (mptcp_v6_join_request_short mpcb tmp_opt loc_nonce).mptcp_rem_key = mpcb.mptcp_rem_key
    ∧ (mptcp_v6_join_request_short mpcb tmp_opt loc_nonce).mptcp_loc_nonce = loc_nonce
    ∧ (mptcp_v6_join_request_short mpcb tmp_opt loc_nonce).mptcp_rem_nonce =
        tmp_opt.mptcp_recv_nonce :=
  ⟨rfl, rfl, rfl, rfl, rfl, rfl, rfl, rfl, rfl, rfl⟩

/-- C8 (amended): a v6-family JOIN request retransmits its SYN-ACK by the
standard v6 routine when the meta socket's family is v6 and otherwise
re-routes via the v6-over-v4-meta transmit path with an explicit
retransmit-counter increment; a v4-family request always uses the plain
standard v4 retransmission, whatever the meta family. -/
theorem C8_rtx_synack_dispatch (meta_sk_family : Nat) :
    mptcp6_request_sock_ops_rtx_syn_ack AF_INET6 =
      ⟨SynackXmit.tcp_v6_rtx_synack, false⟩
    ∧ (meta_sk_family ≠ AF_INET6 →
        mptcp6_request_sock_ops_rtx_syn_ack meta_sk_family =
          ⟨SynackXmit.mptcp_v6v4_send_synack, true⟩)
    ∧ mptcp_request_sock_ops_rtx_syn_ack meta_sk_family =
        ⟨SynackXmit.tcp_v4_rtx_synack, false⟩ := by
  refine ⟨rfl, ?_, rfl⟩
  intro h
  unfold mptcp6_request_sock_ops_rtx_syn_ack mptcp_v6_rtx_synack
  rw [if_neg h]

theorem C8_rtx_synack_dispatch_witness :
    AF_INET ≠ AF_INET6 ∧
    mptcp6_request_sock_ops_rtx_syn_ack AF_INET =
      ⟨SynackXmit.mptcp_v6v4_send_synack, true⟩ :=
  ⟨by decide, (C8_rtx_synack_dispatch AF_INET).2.1 (by decide)⟩

/-- C8 counterexample: the claim requires that with a v6 meta socket and a
v4-family request the SYN-ACK retransmission re-routes via the
opposite-family transmit path and increments the retransmit counter; the
operation bound in `mptcp_request_sock_ops` is the plain
`tcp_v4_rtx_synack` with no increment, independent of the meta family. -/
theorem C8_rtx_synack_counterexample :
    mptcp_request_sock_ops_rtx_syn_ack AF_INET6 =
      ⟨SynackXmit.tcp_v4_rtx_synack, false⟩ ∧
    (mptcp_request_sock_ops_rtx_syn_ack AF_INET6).inc_retranssegs = false ∧
    (mptcp_request_sock_ops_rtx_syn_ack AF_INET6).xmit ≠
      SynackXmit.mptcp_v6v4_send_synack :=
  ⟨rfl, rfl, by decide⟩

/-- C9 (amended): both subflow factories OR a bit into the remote slot's
bitfield before any of socket creation, bind or connect is attempted, so
the bit is set in the final state regardless of their outcomes; the v4
factory sets bit `loc->id`, while the v6 factory sets bit
`loc->id - min(loc->id, MPTCP_MAX_ADDR)` (the slot index), not bit
`loc->id`. -/
theorem C9_init_subsockets_bitfield (loc4 : mptcp_loc4) (loc6 : mptcp_loc6)
    (rem4 rem6 : mptcp_rem) (env4 env6 : SubsockEnv) :
    (mptcp_init4_subsockets loc4 rem4 env4).2.bitfield =
      (rem4.bitfield ||| (1 <<< loc4.id))
    ∧ (mptcp_init4_subsockets loc4 rem4 env4).2.bitfield.testBit loc4.id = true
    ∧ (mptcp_init6_subsockets loc6 rem6 env6).2.bitfield =
        (rem6.bitfield ||| (1 <<< (loc6.id - min loc6.id MPTCP_MAX_ADDR)))
    ∧ (mptcp_init6_subsockets loc6 rem6 env6).2.bitfield.testBit
        (loc6.id - min loc6.id MPTCP_MAX_ADDR) = true := by
  have h4 : (mptcp_init4_subsockets loc4 rem4 env4).2 =
      { rem4 with bitfield := rem4.bitfield ||| (1 <<< loc4.id) } := by
    unfold mptcp_init4_subsockets
    split_ifs <;> rfl
  have h6 : (mptcp_init6_subsockets loc6 rem6 env6).2 =
      { rem6 with bitfield := rem6.bitfield ||| (1 <<< (loc6.id - min loc6.id MPTCP_MAX_ADDR)) } := by
    unfold mptcp_init6_subsockets
    split_ifs <;> rfl
  refine ⟨by rw [h4], ?_, by rw [h6], ?_⟩
  · rw [h4]
    show (rem4.bitfield ||| (1 <<< loc4.id)).testBit loc4.id = true
    rw [testBit_setBit, if_pos rfl]
  · rw [h6]
    show (rem6.bitfield ||| (1 <<< (loc6.id - min loc6.id MPTCP_MAX_ADDR))).testBit
      (loc6.id - min loc6.id MPTCP_MAX_ADDR) = true
    rw [testBit_setBit, if_pos rfl]

/-- C9 counterexample: a v6 subflow whose local address has wire-id 17
(`loc->id = 17`, a v6 wire id) starting from an empty bitfield: even with
every step succeeding, the final bitfield is 2 (bit 1 set), and bit 17 —
the bit `(1 << id_on_wire)` the claim requires — is clear. -/
theorem C9_init_subsockets_counterexample :
    (mptcp_init6_subsockets ⟨5, 17, false⟩ ⟨0, 0, 0, 0, 0⟩ ⟨0, false, 0, 0⟩).1 = 0 ∧
    (mptcp_init6_subsockets ⟨5, 17, false⟩ ⟨0, 0, 0, 0, 0⟩ ⟨0, false, 0, 0⟩).2.bitfield = 2 ∧
    (mptcp_init6_subsockets ⟨5, 17, false⟩ ⟨0, 0, 0, 0, 0⟩
      ⟨0, false, 0, 0⟩).2.bitfield.testBit 17 = false := by
  refine ⟨by decide, by decide, by decide⟩

theorem natUpdate_slots_same (s : mptcp_rem_family) (i : Fin 16) (a p : Nat) :
    (natUpdate s i a p).slots i = { s.slots i with addr := a, port := p } :=
  Function.update_same i _ s.slots

theorem natUpdate_slots_other {s : mptcp_rem_family} {i : Fin 16} {a p : Nat}
    {j : Fin 16} (h : j ≠ i) : (natUpdate s i a p).slots j = s.slots j :=
  Function.update_noteq h _ s.slots

/-- C6 (amended): calling `add_raddress` twice in a row with the same
`(addr, port, id)` leaves the registry in the same state as calling it once,
for both the v4 and the v6 flavour; and when a populated slot matches
`(id, addr, port)` exactly and no earlier populated slot takes the
NAT-update branch first (v4: no earlier populated slot has the given id
with a different address; v6: every earlier populated slot with the given
id agrees on address and port), the call succeeds and changes nothing. -/
theorem C6_add_raddress_idempotent (s : mptcp_rem_family) (a p id : Nat) (i : Fin 16) :
    ((mptcp_v4_add_raddress (mptcp_v4_add_raddress s a p id).2 a p id).2 =
      (mptcp_v4_add_raddress s a p id).2)
    ∧ ((mptcp_v6_add_raddress (mptcp_v6_add_raddress s a p id).2 a p id).2 =
      (mptcp_v6_add_raddress s a p id).2)
    ∧ (s.bits.testBit i.val = true →
       (s.slots i).id = id → (s.slots i).addr = a → (s.slots i).port = p →
       (∀ j : Fin 16, j < i → s.bits.testBit j.val = true →
         (s.slots j).id = id → (s.slots j).addr = a) →
       mptcp_v4_add_raddress s a p id = (0, s))
    ∧ (s.bits.testBit i.val = true →
       (s.slots i).id = id → (s.slots i).addr = a → (s.slots i).port = p →
       (∀ j : Fin 16, j < i → s.bits.testBit j.val = true →
         (s.slots j).id = id → (s.slots j).addr = a ∧ (s.slots j).port = p) →
       mptcp_v6_add_raddress s a p id = (0, s)) := by
  refine ⟨add_raddress_twice true s a p id, add_raddress_twice false s a p id, ?_, ?_⟩
  · intro hbit hid haddr hport hbefore
    apply add_raddress_dup hbit ⟨hid, haddr, hport⟩
    intro j hj hb hsf
    exact slotHit_eq_some_false_v4_addr hsf
      (hbefore j hj hb (slotHit_eq_some_false_id hsf))
  · intro hbit hid haddr hport hbefore
    apply add_raddress_dup hbit ⟨hid, haddr, hport⟩
    intro j hj hb hsf
    have hjid := slotHit_eq_some_false_id hsf
    obtain ⟨hja, hjp⟩ := hbefore j hj hb hjid
    rw [slotHit_exact ⟨hjid, hja, hjp⟩] at hsf
    simp at hsf

theorem C6_add_raddress_idempotent_witness :
    mptcp_v4_add_raddress ⟨1, fun _ => ⟨7, 1, 3, 0, 0⟩, false⟩ 7 1 3 =
      (0, ⟨1, fun _ => ⟨7, 1, 3, 0, 0⟩, false⟩) :=
  (C6_add_raddress_idempotent ⟨1, fun _ => ⟨7, 1, 3, 0, 0⟩, false⟩ 7 1 3 0).2.2.1
    (by decide) (by decide) (by decide) (by decide) (by decide)

/-- C6 counterexample: in the v4 state with slot 0 = `(id 5, addr 2, port 11)`
and slot 1 = `(id 5, addr 1, port 11)` — reachable from the empty registry by
`add(1,10,5)`, `add(1,11,5)`, `add(2,11,5)` — a further `add(1,11,5)` finds
slot 1 matching `(id, addr, port)` exactly, yet the call does not leave the
registry unchanged: slot 0 takes the NAT-update branch first and its address
is rewritten from 2 to 1. -/
theorem C6_add_raddress_counterexample :
    ¬ (∀ (s : mptcp_rem_family) (a p id : Nat) (i : Fin 16),
        s.bits.testBit i.val = true →
        (s.slots i).id = id → (s.slots i).addr = a → (s.slots i).port = p →
        (mptcp_v4_add_raddress s a p id).2 = s) := by
  intro hcl
  have heq := hcl (mptcp_v4_add_raddress (mptcp_v4_add_raddress
      (mptcp_v4_add_raddress emptyRemFamily 1 10 5).2 1 11 5).2 2 11 5).2
    1 11 5 1 (by decide) (by decide) (by decide) (by decide)
  have haddr := congrArg (fun t : mptcp_rem_family => (t.slots 0).addr) heq
  exact absurd haddr (by decide)

/-- C3 (amended): if some populated slot has the given id with a different
stored address, the first such slot is overwritten in place with the given
address and port, `list_rcvd` is set, the call succeeds and `rem_bits` is
unchanged — provided no earlier populated slot matches `(id, addr, port)`
exactly (v4) and, for v4, every earlier populated slot with the given id
has the given address, resp., for v6, no earlier populated slot has the
given id at all. -/
theorem C3_add_raddress_nat_rewrite (s : mptcp_rem_family) (a p id : Nat) (i : Fin 16) :
    (s.bits.testBit i.val = true → (s.slots i).id = id → (s.slots i).addr ≠ a →
     (∀ j : Fin 16, j < i → s.bits.testBit j.val = true →
        ¬((s.slots j).id = id ∧ (s.slots j).addr = a ∧ (s.slots j).port = p)) →
     (∀ j : Fin 16, j < i → s.bits.testBit j.val = true →
        (s.slots j).id = id → (s.slots j).addr = a) →
     (mptcp_v4_add_raddress s a p id).1 = 0 ∧
     (mptcp_v4_add_raddress s a p id).2.bits = s.bits ∧
     (mptcp_v4_add_raddress s a p id).2.list_rcvd = true ∧
     ((mptcp_v4_add_raddress s a p id).2.slots i).addr = a ∧
     ((mptcp_v4_add_raddress s a p id).2.slots i).port = p ∧
     ((mptcp_v4_add_raddress s a p id).2.slots i).id = id ∧
     (∀ j : Fin 16, j ≠ i → (mptcp_v4_add_raddress s a p id).2.slots j = s.slots j))
    ∧
    (s.bits.testBit i.val = true → (s.slots i).id = id → (s.slots i).addr ≠ a →
     (∀ j : Fin 16, j < i → s.bits.testBit j.val = true → (s.slots j).id ≠ id) →
     (mptcp_v6_add_raddress s a p id).1 = 0 ∧
     (mptcp_v6_add_raddress s a p id).2.bits = s.bits ∧
     (mptcp_v6_add_raddress s a p id).2.list_rcvd = true ∧
     ((mptcp_v6_add_raddress s a p id).2.slots i).addr = a ∧
     ((mptcp_v6_add_raddress s a p id).2.slots i).port = p ∧
     ((mptcp_v6_add_raddress s a p id).2.slots i).id = id ∧
     (∀ j : Fin 16, j ≠ i → (mptcp_v6_add_raddress s a p id).2.slots j = s.slots j)) := by
  constructor
  · intro hbit hid haddr hex hnat
    have hmain : mptcp_v4_add_raddress s a p id = (0, natUpdate s i a p) := by
      unfold mptcp_v4_add_raddress
      exact add_raddress_nat_update hbit (slotHit_nat_v4 hid haddr)
        (fun j hj hb => slotHit_skip_v4 (hex j hj hb) (hnat j hj hb))
    rw [hmain]
    refine ⟨rfl, rfl, rfl, ?_, ?_, ?_, ?_⟩
    · rw [natUpdate_slots_same]
    · rw [natUpdate_slots_same]
    · rw [natUpdate_slots_same]; exact hid
    · intro j hj; exact natUpdate_slots_other hj
  · intro hbit hid haddr hbefore
    have hmain : mptcp_v6_add_raddress s a p id = (0, natUpdate s i a p) := by
      unfold mptcp_v6_add_raddress
      exact add_raddress_nat_update hbit
        (slotHit_nat_v6 hid (fun hc => haddr hc.1))
        (fun j hj hb => slotHit_of_id_ne (hbefore j hj hb))
    rw [hmain]
    refine ⟨rfl, rfl, rfl, ?_, ?_, ?_, ?_⟩
    · rw [natUpdate_slots_same]
    · rw [natUpdate_slots_same]
    · rw [natUpdate_slots_same]; exact hid
    · intro j hj; exact natUpdate_slots_other hj

theorem C3_add_raddress_nat_rewrite_witness :
    ((mptcp_v4_add_raddress ⟨1, fun _ => ⟨7, 1, 3, 0, 0⟩, false⟩ 9 2 3).2.slots 0).addr = 9 ∧
    ((mptcp_v4_add_raddress ⟨1, fun _ => ⟨7, 1, 3, 0, 0⟩, false⟩ 9 2 3).2.slots 0).port = 2 ∧
    (mptcp_v4_add_raddress ⟨1, fun _ => ⟨7, 1, 3, 0, 0⟩, false⟩ 9 2 3).2.bits = 1 ∧
    (mptcp_v4_add_raddress ⟨1, fun _ => ⟨7, 1, 3, 0, 0⟩, false⟩ 9 2 3).2.list_rcvd = true := by
  have h := (C3_add_raddress_nat_rewrite ⟨1, fun _ => ⟨7, 1, 3, 0, 0⟩, false⟩ 9 2 3 0).1
    (by decide) (by decide) (by decide) (by decide) (by decide)
  exact ⟨h.2.2.2.1, h.2.2.2.2.1, h.2.1, h.2.2.1⟩

/-- C3 counterexample: in the v4 state with slot 0 = `(id 5, addr 2, port 12)`
and slot 1 = `(id 5, addr 1, port 11)` — reachable from the empty registry by
`add(1,10,5)`, `add(1,11,5)`, `add(2,12,5)` — the call `add(2,12,5)` satisfies
the claim's hypothesis (populated slot 1 carries id 5 with address 1 ≠ 2),
yet the first such slot is not overwritten: slot 0 matches `(id, addr, port)`
exactly, the scan returns there, and slot 1 keeps address 1. -/
theorem C3_add_raddress_counterexample :
    ¬ (∀ (s : mptcp_rem_family) (a p id : Nat) (i : Fin 16),
        s.bits.testBit i.val = true → (s.slots i).id = id → (s.slots i).addr ≠ a →
        (∀ j : Fin 16, j < i → s.bits.testBit j.val = true →
          ¬((s.slots j).id = id ∧ (s.slots j).addr ≠ a)) →
        ((mptcp_v4_add_raddress s a p id).2.slots i).addr = a ∧
        ((mptcp_v4_add_raddress s a p id).2.slots i).port = p) := by
  intro hcl
  have h := hcl (mptcp_v4_add_raddress (mptcp_v4_add_raddress
      (mptcp_v4_add_raddress emptyRemFamily 1 10 5).2 1 11 5).2 2 12 5).2
    2 12 5 1 (by decide) (by decide) (by decide) (by decide)
  exact absurd h (by decide)

/-- C10 (amended): when the first relevant populated slot carries the given
id with an equal stored address but a different stored port, the v6
`add_raddress` overwrites that slot's port in place (setting `list_rcvd`,
allocating nothing), provided no earlier populated slot carries the id;
the v4 `add_raddress` leaves the matching slot untouched and populates the
first free slot with `(id, addr, new port)`, provided no populated slot
matches `(id, addr, port)` exactly, every populated slot with the id has
the given address, and a free slot exists. -/
theorem C10_add_raddress_port_change (s : mptcp_rem_family) (a p id : Nat) (i f : Fin 16) :
    (s.bits.testBit i.val = true → (s.slots i).id = id → (s.slots i).addr = a →
     (s.slots i).port ≠ p →
     (∀ j : Fin 16, j < i → s.bits.testBit j.val = true → (s.slots j).id ≠ id) →
     (mptcp_v6_add_raddress s a p id).1 = 0 ∧
     (mptcp_v6_add_raddress s a p id).2.bits = s.bits ∧
     (mptcp_v6_add_raddress s a p id).2.list_rcvd = true ∧
     ((mptcp_v6_add_raddress s a p id).2.slots i).addr = a ∧
     ((mptcp_v6_add_raddress s a p id).2.slots i).port = p ∧
     ((mptcp_v6_add_raddress s a p id).2.slots i).id = id ∧
     (∀ j : Fin 16, j ≠ i → (mptcp_v6_add_raddress s a p id).2.slots j = s.slots j))
    ∧
    (s.bits.testBit i.val = true → (s.slots i).id = id → (s.slots i).addr = a →
     (s.slots i).port ≠ p →
     (∀ j : Fin 16, s.bits.testBit j.val = true →
        ¬((s.slots j).id = id ∧ (s.slots j).addr = a ∧ (s.slots j).port = p)) →
     (∀ j : Fin 16, s.bits.testBit j.val = true → (s.slots j).id = id →
        (s.slots j).addr = a) →
     mptcp_find_free_index s.bits = some f →
     (mptcp_v4_add_raddress s a p id).1 = 0 ∧
     (mptcp_v4_add_raddress s a p id).2.slots i = s.slots i ∧
     (mptcp_v4_add_raddress s a p id).2.slots f = ⟨a, p, id, 0, 0⟩ ∧
     (mptcp_v4_add_raddress s a p id).2.bits = (s.bits ||| (1 <<< f.val)) ∧
     (mptcp_v4_add_raddress s a p id).2.list_rcvd = true) := by
  constructor
  · intro hbit hid haddr hport hbefore
    have hmain : mptcp_v6_add_raddress s a p id = (0, natUpdate s i a p) := by
      unfold mptcp_v6_add_raddress
      exact add_raddress_nat_update hbit
        (slotHit_nat_v6 hid (fun hc => hport hc.2))
        (fun j hj hb => slotHit_of_id_ne (hbefore j hj hb))
    rw [hmain]
    refine ⟨rfl, rfl, rfl, ?_, ?_, ?_, ?_⟩
    · rw [natUpdate_slots_same]
    · rw [natUpdate_slots_same]
    · rw [natUpdate_slots_same]; exact hid
    · intro j hj; exact natUpdate_slots_other hj
  · intro hbit hid haddr hport hnoex hnonat hfree
    have hscan : scan16 (stateHit true s a p id) = none := by
      apply scan16_none_intro
      intro j
      unfold stateHit
      by_cases hb : s.bits.testBit j.val
      · rw [if_pos hb]
        exact slotHit_skip_v4 (hnoex j hb) (hnonat j hb)
      · rw [if_neg hb]
    have hmain : mptcp_v4_add_raddress s a p id = (0, allocSlot s f a p id) := by
      unfold mptcp_v4_add_raddress add_raddress
      rw [hscan, hfree]
    have hif : i ≠ f := by
      intro hv
      rw [hv] at hbit
      rw [find_free_index_eq_some hfree] at hbit
      exact absurd hbit (by simp)
    rw [hmain]
    refine ⟨rfl, ?_, ?_, rfl, rfl⟩
    · exact Function.update_noteq hif _ s.slots
    · exact Function.update_same f _ s.slots

theorem C10_add_raddress_port_change_witness :
    ((mptcp_v6_add_raddress ⟨1, fun _ => ⟨7, 1, 3, 0, 0⟩, false⟩ 7 2 3).2.slots 0).port = 2 ∧
    (mptcp_v6_add_raddress ⟨1, fun _ => ⟨7, 1, 3, 0, 0⟩, false⟩ 7 2 3).2.bits = 1 ∧
    (mptcp_v4_add_raddress ⟨1, fun _ => ⟨7, 1, 3, 0, 0⟩, false⟩ 7 2 3).2.slots 1 =
      ⟨7, 2, 3, 0, 0⟩ ∧
    (mptcp_v4_add_raddress ⟨1, fun _ => ⟨7, 1, 3, 0, 0⟩, false⟩ 7 2 3).2.slots 0 =
      ⟨7, 1, 3, 0, 0⟩ ∧
    (mptcp_v4_add_raddress ⟨1, fun _ => ⟨7, 1, 3, 0, 0⟩, false⟩ 7 2 3).2.bits = 3 := by
  have h6 := (C10_add_raddress_port_change ⟨1, fun _ => ⟨7, 1, 3, 0, 0⟩, false⟩ 7 2 3 0 1).1
    (by decide) (by decide) (by decide) (by decide) (by decide)
  have h4 := (C10_add_raddress_port_change ⟨1, fun _ => ⟨7, 1, 3, 0, 0⟩, false⟩ 7 2 3 0 1).2
    (by decide) (by decide) (by decide) (by decide) (by decide) (by decide) (by decide)
  exact ⟨h6.2.2.2.2.1, h6.2.1, h4.2.2.1, h4.2.1, h4.2.2.2.1⟩

/-- C10 counterexample: in the v4 state with slot 0 = `(id 5, addr 2, port 11)`
and slot 1 = `(id 5, addr 1, port 11)` — reachable from the empty registry by
`add(1,10,5)`, `add(1,11,5)`, `add(2,11,5)` — the call `add(2,12,5)` meets the
claim's precondition (slot 0 carries id 5 with the given address 2 and port
11 ≠ 12), yet no fresh slot is allocated: slot 1 takes the v4 NAT-update
branch instead and `rem_bits` is unchanged. -/
theorem C10_add_raddress_counterexample :
    ¬ (∀ (s : mptcp_rem_family) (a p id : Nat) (i : Fin 16),
        s.bits.testBit i.val = true → (s.slots i).id = id → (s.slots i).addr = a →
        (s.slots i).port ≠ p →
        ((mptcp_v4_add_raddress s a p id).2.slots i = s.slots i ∧
         ∃ g : Fin 16, s.bits.testBit g.val = false ∧
           (mptcp_v4_add_raddress s a p id).2.bits.testBit g.val = true)) := by
  intro hcl
  have h := hcl (mptcp_v4_add_raddress (mptcp_v4_add_raddress
      (mptcp_v4_add_raddress emptyRemFamily 1 10 5).2 1 11 5).2 2 11 5).2
    2 12 5 0 (by decide) (by decide) (by decide) (by decide)
  obtain ⟨-, g, hg1, hg2⟩ := h
  have hb1 : (mptcp_v4_add_raddress (mptcp_v4_add_raddress (mptcp_v4_add_raddress
      (mptcp_v4_add_raddress emptyRemFamily 1 10 5).2 1 11 5).2 2 11 5).2 2 12 5).2.bits
      = 3 := by decide
  have hb2 : (mptcp_v4_add_raddress (mptcp_v4_add_raddress
      (mptcp_v4_add_raddress emptyRemFamily 1 10 5).2 1 11 5).2 2 11 5).2.bits = 3 := by
    decide
  rw [hb1] at hg2
  rw [hb2] at hg1
  rw [hg1] at hg2
  exact absurd hg2 (by simp)

/-- C5 (amended): for the IPv6 family, every remote registry state reachable
from the empty registry by `add_raddress`/`rem_raddress` calls satisfies the
invariant that no two populated slots store the same `(id, ip, port)` triple
(indeed no two populated slots share an id).  For the IPv4 family the
invariant fails on a reachable state; see the counterexample. -/
theorem C5_v6_no_duplicate_triples (s : mptcp_rem_family)
    (h : RemReachable false s) (i j : Fin 16)
    (hbi : s.bits.testBit i.val = true) (hbj : s.bits.testBit j.val = true)
    (hij : i ≠ j) :
    ¬((s.slots i).id = (s.slots j).id ∧ (s.slots i).addr = (s.slots j).addr ∧
      (s.slots i).port = (s.slots j).port) := by
  intro hc
  exact reachable_v6_distinct h i j hbi hbj hij hc.1

theorem C5_v6_no_duplicate_triples_witness :
    ((add_raddress false (add_raddress false emptyRemFamily 1 1 1).2 2 2 2).2.bits.testBit 0
       = true) ∧
    ((add_raddress false (add_raddress false emptyRemFamily 1 1 1).2 2 2 2).2.bits.testBit 1
       = true) ∧
    ¬(((add_raddress false (add_raddress false emptyRemFamily 1 1 1).2 2 2 2).2.slots 0).id =
        ((add_raddress false (add_raddress false emptyRemFamily 1 1 1).2 2 2 2).2.slots 1).id ∧
      ((add_raddress false (add_raddress false emptyRemFamily 1 1 1).2 2 2 2).2.slots 0).addr =
        ((add_raddress false (add_raddress false emptyRemFamily 1 1 1).2 2 2 2).2.slots 1).addr ∧
      ((add_raddress false (add_raddress false emptyRemFamily 1 1 1).2 2 2 2).2.slots 0).port =
        ((add_raddress false (add_raddress false emptyRemFamily 1 1 1).2 2 2 2).2.slots 1).port) :=
  ⟨by decide, by decide,
   C5_v6_no_duplicate_triples _
     (RemReachable.add _ 2 2 2 (RemReachable.add _ 1 1 1 RemReachable.empty))
     0 1 (by decide) (by decide) (by decide)⟩

/-- C5 counterexample: for the IPv4 family the uniqueness invariant fails on
a reachable state: starting from the empty registry, `add(1,10,5)`,
`add(1,11,5)`, `add(2,11,5)`, `add(1,11,5)` leaves slots 0 and 1 both
populated with the identical triple `(id 5, addr 1, port 11)`. -/
theorem C5_v4_duplicate_triples_counterexample :
    ¬ (∀ s : mptcp_rem_family, RemReachable true s →
        ∀ i j : Fin 16, s.bits.testBit i.val = true → s.bits.testBit j.val = true →
        i ≠ j →
        ¬((s.slots i).id = (s.slots j).id ∧ (s.slots i).addr = (s.slots j).addr ∧
          (s.slots i).port = (s.slots j).port)) := by
  intro hcl
  exact hcl _
    (RemReachable.add _ 1 11 5 (RemReachable.add _ 2 11 5
      (RemReachable.add _ 1 11 5 (RemReachable.add _ 1 10 5 RemReachable.empty))))
    0 1 (by decide) (by decide) (by decide) (by decide)

/-- C2: on the fast JOIN-SYN path of an open, token-table-resident meta
socket, when all 16 v4 remote slots are populated and none carries the
option's address id, `mptcp_v4_add_raddress` returns failure leaving the
registry unchanged — no slot written, no bit set — and the handler answers
with a TCP reset, creating no request. -/
theorem C2_join_syn_full_registry (sk_state : Nat) (inside_tk : Bool)
    (mpcb : mptcp_cb_keys) (s : mptcp_rem_family) (saddr : Nat)
    (tmp_opt : tcp_options_received) (nonce : List Nat)
    (hstate : sk_state ≠ TCP_CLOSE) (htk : inside_tk = true)
    (hfull : ∀ i : Fin 16, s.bits.testBit i.val = true)
    (hno : ∀ i : Fin 16,
      ¬((s.slots i).id = tmp_opt.mpj_addr_id ∧ (s.slots i).addr = saddr ∧
        (s.slots i).port = 0) ∧
      ((s.slots i).id = tmp_opt.mpj_addr_id → (s.slots i).addr = saddr)) :
    mptcp_v4_add_raddress s saddr 0 tmp_opt.mpj_addr_id = (-1, s) ∧
    mptcp_v4_do_rcv_join_syn sk_state inside_tk mpcb s saddr tmp_opt nonce =
      (JoinSynOut.reset, s) := by
  have hadd : mptcp_v4_add_raddress s saddr 0 tmp_opt.mpj_addr_id = (-1, s) := by
    have hscan : scan16 (stateHit true s saddr 0 tmp_opt.mpj_addr_id) = none := by
      apply scan16_none_intro
      intro j
      unfold stateHit
      rw [if_pos (hfull j)]
      exact slotHit_skip_v4 (hno j).1 (hno j).2
    unfold mptcp_v4_add_raddress add_raddress
    rw [hscan, find_free_index_full hfull]
  refine ⟨hadd, ?_⟩
  have hcond : ¬(sk_state = TCP_CLOSE ∨ inside_tk = false) := by
    rintro (hc | hc)
    · exact hstate hc
    · rw [htk] at hc; exact absurd hc (by simp)
  unfold mptcp_v4_do_rcv_join_syn
  rw [if_neg hcond]
  simp only [hadd]
  norm_num

theorem C2_join_syn_full_registry_witness :
    mptcp_v4_add_raddress ⟨65535, fun _ => ⟨0, 0, 0, 0, 0⟩, false⟩ 9 0 1 =
      (-1, ⟨65535, fun _ => ⟨0, 0, 0, 0, 0⟩, false⟩) ∧
    mptcp_v4_do_rcv_join_syn 1 true ⟨[], []⟩ ⟨65535, fun _ => ⟨0, 0, 0, 0, 0⟩, false⟩ 9
      ⟨[], 1, 0, false⟩ [] = (JoinSynOut.reset, ⟨65535, fun _ => ⟨0, 0, 0, 0, 0⟩, false⟩) :=
  C2_join_syn_full_registry 1 true ⟨[], []⟩ ⟨65535, fun _ => ⟨0, 0, 0, 0, 0⟩, false⟩ 9
    ⟨[], 1, 0, false⟩ [] (by decide) rfl (by decide) (by decide)

theorem searchLoop_eq_find (pm : mptcp_request_entry → Bool) (L : List mptcp_request_entry) :
    searchLoop pm L = L.find? pm := by
  induction L with
  | nil => rfl
  | cons x xs ih =>
    unfold searchLoop
    cases h : pm x with
    | true => rw [if_pos rfl, List.find?_cons_of_pos _ h]
    | false => rw [if_neg (by simp), List.find?_cons_of_neg _ (by simp [h]), ih]

/-- C4: `mptcp_v4_search_req` scans exactly the bucket
`inet_synq_hash(raddr, rport)` and yields the meta socket of the first
entry whose remote port, remote address, local address and family all
match, incrementing that meta's refcount and no other; it yields none,
leaving every refcount alone, when no entry of that bucket matches; and a
request inserted by the JOIN routine's `reqsk_queue_hash_add` lands at the
head of exactly that bucket (all other buckets untouched), where the
search for its tuple finds it.  The v6 pair behaves the same over
`inet6_synq_hash`. -/
theorem C4_search_req_bucket (htb : Nat → List mptcp_request_entry) (refcnt : Nat → Nat)
    (rport raddr laddr : Nat) (req : mptcp_request_entry) :
    (mptcp_v4_search_req htb refcnt rport raddr laddr).1 =
      ((htb (inet_synq_hash raddr rport)).find? (reqMatches4 rport raddr laddr)).map
        mptcp_request_entry.meta
    ∧ (∀ m : Nat, (mptcp_v4_search_req htb refcnt rport raddr laddr).1 = some m →
        (mptcp_v4_search_req htb refcnt rport raddr laddr).2 m = refcnt m + 1 ∧
        ∀ x : Nat, x ≠ m → (mptcp_v4_search_req htb refcnt rport raddr laddr).2 x = refcnt x)
    ∧ ((mptcp_v4_search_req htb refcnt rport raddr laddr).1 = none →
        (mptcp_v4_search_req htb refcnt rport raddr laddr).2 = refcnt)
    ∧ (mptcp_v4_reqsk_queue_hash_add htb req) (inet_synq_hash req.rmt_addr req.rmt_port) =
        req :: htb (inet_synq_hash req.rmt_addr req.rmt_port)
    ∧ (∀ b : Nat, b ≠ inet_synq_hash req.rmt_addr req.rmt_port →
        (mptcp_v4_reqsk_queue_hash_add htb req) b = htb b)
    ∧ (req.family = AF_INET → req.rmt_port = rport → req.rmt_addr = raddr →
        req.loc_addr = laddr →
        (mptcp_v4_search_req (mptcp_v4_reqsk_queue_hash_add htb req) refcnt
          rport raddr laddr).1 = some req.meta)
    ∧ (mptcp_v6_search_req htb refcnt rport raddr laddr).1 =
        ((htb (inet6_synq_hash raddr rport)).find? (reqMatches6 rport raddr laddr)).map
          mptcp_request_entry.meta
    ∧ (req.family = AF_INET6 → req.rmt_port = rport → req.rmt_addr = raddr →
        req.loc_addr = laddr →
        (mptcp_v6_search_req (mptcp_v6_reqsk_queue_hash_add htb req) refcnt
          rport raddr laddr).1 = some req.meta) := by
  refine ⟨?_, ?_, ?_, ?_, ?_, ?_, ?_, ?_⟩
  · unfold mptcp_v4_search_req
    rw [searchLoop_eq_find]
    cases h : (htb (inet_synq_hash raddr rport)).find? (reqMatches4 rport raddr laddr) <;>
      simp [h]
  · intro m hm
    unfold mptcp_v4_search_req at hm ⊢
    cases h : searchLoop (reqMatches4 rport raddr laddr) (htb (inet_synq_hash raddr rport)) with
    | none => rw [h] at hm; exact absurd hm (by simp)
    | some e =>
      rw [h] at hm
      simp only [Option.some.injEq] at hm
      subst hm
      constructor
      · show (if e.meta = e.meta then refcnt e.meta + 1 else refcnt e.meta) = refcnt e.meta + 1
        rw [if_pos rfl]
      · intro x hx
        show (if x = e.meta then refcnt x + 1 else refcnt x) = refcnt x
        rw [if_neg hx]
  · intro hm
    unfold mptcp_v4_search_req at hm ⊢
    cases h : searchLoop (reqMatches4 rport raddr laddr) (htb (inet_synq_hash raddr rport)) with
    | none => rfl
    | some e => rw [h] at hm; exact absurd hm (by simp)
  · unfold mptcp_v4_reqsk_queue_hash_add
    rw [if_pos rfl]
  · intro b hb
    unfold mptcp_v4_reqsk_queue_hash_add
    rw [if_neg hb]
  · intro hfam hp ha hl
    subst hp; subst ha; subst hl
    unfold mptcp_v4_search_req mptcp_v4_reqsk_queue_hash_add
    rw [if_pos rfl]
    unfold searchLoop
    rw [if_pos (by simp [reqMatches4, hfam])]
  · unfold mptcp_v6_search_req
    rw [searchLoop_eq_find]
    cases h : (htb (inet6_synq_hash raddr rport)).find? (reqMatches6 rport raddr laddr) <;>
      simp [h]
  · intro hfam hp ha hl
    subst hp; subst ha; subst hl
    unfold mptcp_v6_search_req mptcp_v6_reqsk_queue_hash_add
    rw [if_pos rfl]
    unfold searchLoop
    rw [if_pos (by simp [reqMatches6, hfam])]

theorem C4_search_req_bucket_witness :
    (mptcp_v4_search_req
        (mptcp_v4_reqsk_queue_hash_add (fun _ => []) ⟨49152, 100, 200, 2, 7⟩)
        (fun _ => 0) 49152 100 200).1 = some 7 ∧
    (mptcp_v4_search_req
        (mptcp_v4_reqsk_queue_hash_add (fun _ => []) ⟨49152, 100, 200, 2, 7⟩)
        (fun _ => 0) 49152 100 200).2 7 = 1 := by
  have h := C4_search_req_bucket
    (mptcp_v4_reqsk_queue_hash_add (fun _ => []) ⟨49152, 100, 200, 2, 7⟩)
    (fun _ => 0) 49152 100 200 ⟨49152, 100, 200, 2, 7⟩
  have h1 : (mptcp_v4_search_req
      (mptcp_v4_reqsk_queue_hash_add (fun _ => []) ⟨49152, 100, 200, 2, 7⟩)
      (fun _ => 0) 49152 100 200).1 = some 7 := by
    have h6 := (C4_search_req_bucket (fun _ => []) (fun _ => 0) 49152 100 200
      ⟨49152, 100, 200, 2, 7⟩).2.2.2.2.2.1 rfl rfl rfl rfl
    exact h6
  exact ⟨h1, ((h.2.1) 7 h1).1⟩


/-- C7: when the event address occupies local slot `i` of its family (the
first slot holding it), handling NETDEV_DOWN clears bit `i` of the local
bitfield, ORs `1 << addr[i].id` into `remove_addrs`, replaces every
populated remote slot's per-local bitfield by its AND with the new local
bitfield, and every subflow of that family bound to the address ends up
reinjected and force-closed — for the v4 handler and the v6 handler
alike. -/
theorem C7_netdev_down_handler (ifa : ifaddr_event) (mpcb : mptcp_cb_pm) (i : Fin 16) :
    (ifa.ifa_scope ≤ RT_SCOPE_LINK → ifa.nomultipath = false →
     mpcb.loc4_bits.testBit i.val = true →
     (mpcb.addr4 i).addr = ifa.ifa_local →
     (∀ j : Fin 16, j < i →
       ¬(mpcb.loc4_bits.testBit j.val = true ∧ (mpcb.addr4 j).addr = ifa.ifa_local)) →
     (∀ j : Nat,
       (mptcp_pm_addr4_event_handler ifa NetdevEvent.netdev_down mpcb).1.loc4_bits.testBit j =
         if j = i.val then false else mpcb.loc4_bits.testBit j)
     ∧ (mptcp_pm_addr4_event_handler ifa NetdevEvent.netdev_down mpcb).1.remove_addrs =
         (mpcb.remove_addrs ||| (1 <<< (mpcb.addr4 i).id))
     ∧ (∀ j : Fin 16, mpcb.rx_opt4.bits.testBit j.val = true →
         ((mptcp_pm_addr4_event_handler ifa NetdevEvent.netdev_down mpcb).1.rx_opt4.slots
            j).bitfield =
           ((mpcb.rx_opt4.slots j).bitfield &&&
             (mptcp_pm_addr4_event_handler ifa NetdevEvent.netdev_down mpcb).1.loc4_bits))
     ∧ (∀ sk ∈ (mptcp_pm_addr4_event_handler ifa NetdevEvent.netdev_down mpcb).1.subflows,
         sk.family = AF_INET → sk.saddr = ifa.ifa_local →
         sk.reinjected = true ∧ sk.closed = true))
    ∧
    (ifa.ifa_scope ≤ RT_SCOPE_LINK → ifa.nomultipath = false →
     ipv6AddrRejected ifa.ifa_local = false →
     mpcb.loc6_bits.testBit i.val = true →
     (mpcb.addr6 i).addr = ifa.ifa_local →
     (∀ j : Fin 16, j < i →
       ¬(mpcb.loc6_bits.testBit j.val = true ∧ (mpcb.addr6 j).addr = ifa.ifa_local)) →
     (∀ j : Nat,
       (mptcp_pm_addr6_event_handler ifa NetdevEvent.netdev_down mpcb).1.loc6_bits.testBit j =
         if j = i.val then false else mpcb.loc6_bits.testBit j)
     ∧ (mptcp_pm_addr6_event_handler ifa NetdevEvent.netdev_down mpcb).1.remove_addrs =
         (mpcb.remove_addrs ||| (1 <<< (mpcb.addr6 i).id))
     ∧ (∀ j : Fin 16, mpcb.rx_opt6.bits.testBit j.val = true →
         ((mptcp_pm_addr6_event_handler ifa NetdevEvent.netdev_down mpcb).1.rx_opt6.slots
            j).bitfield =
           ((mpcb.rx_opt6.slots j).bitfield &&&
             (mptcp_pm_addr6_event_handler ifa NetdevEvent.netdev_down mpcb).1.loc6_bits))
     ∧ (∀ sk ∈ (mptcp_pm_addr6_event_handler ifa NetdevEvent.netdev_down mpcb).1.subflows,
         sk.family = AF_INET6 → sk.saddr = ifa.ifa_local →
         sk.reinjected = true ∧ sk.closed = true)) := by
  constructor
  · intro hscope hnm hbit haddr hfirst
    have hguard : ¬(RT_SCOPE_LINK < ifa.ifa_scope ∨ ifa.nomultipath = true) := by
      rintro (hc | hc)
      · exact absurd hc (not_lt.2 hscope)
      · rw [hnm] at hc; exact absurd hc (by simp)
    have hscan : scan16 (fun j : Fin 16 =>
        if mpcb.loc4_bits.testBit j.val ∧ (mpcb.addr4 j).addr = ifa.ifa_local
        then some () else none) = some (i, ()) := by
      apply scan16_some_intro
      · rw [if_pos ⟨hbit, haddr⟩]
      · intro j hj
        rw [if_neg (hfirst j hj)]
    have hr : mptcp_pm_addr4_event_handler ifa NetdevEvent.netdev_down mpcb =
        ({ mpcb with
            subflows := mpcb.subflows.map (subflowReact4 ifa NetdevEvent.netdev_down)
            loc4_bits := clearBit mpcb.loc4_bits i.val
            remove_addrs := mpcb.remove_addrs ||| (1 <<< (mpcb.addr4 i).id)
            rx_opt4 := { mpcb.rx_opt4 with
              slots := fun j =>
                if mpcb.rx_opt4.bits.testBit j.val then
                  { mpcb.rx_opt4.slots j with
                    bitfield := (mpcb.rx_opt4.slots j).bitfield &&&
                      clearBit mpcb.loc4_bits i.val }
                else mpcb.rx_opt4.slots j } },
         [PmAction.select_ack_sock_and_send_ack]) := by
      unfold mptcp_pm_addr4_event_handler
      rw [if_neg hguard, hscan]
      rfl
    rw [hr]
    refine ⟨?_, rfl, ?_, ?_⟩
    · intro j
      exact testBit_clearBit
    · intro j hb
      simp only [hb, if_true]
    · intro sk hsk hf hs
      obtain ⟨x, hx, rfl⟩ := List.mem_map.1 hsk
      by_cases hcond : x.family ≠ AF_INET ∨ x.saddr ≠ ifa.ifa_local
      · rw [subflowReact4, if_pos hcond] at hf hs
        rcases hcond with hc | hc
        · exact absurd hf hc
        · exact absurd hs hc
      · rw [subflowReact4, if_neg hcond]
        exact ⟨rfl, rfl⟩
  · intro hscope hnm hrej hbit haddr hfirst
    have hguard : ¬(RT_SCOPE_LINK < ifa.ifa_scope ∨ ifa.nomultipath = true ∨
        ipv6AddrRejected ifa.ifa_local = true) := by
      rintro (hc | hc | hc)
      · exact absurd hc (not_lt.2 hscope)
      · rw [hnm] at hc; exact absurd hc (by simp)
      · rw [hrej] at hc; exact absurd hc (by simp)
    have hscan : scan16 (fun j : Fin 16 =>
        if mpcb.loc6_bits.testBit j.val ∧ (mpcb.addr6 j).addr = ifa.ifa_local
        then some () else none) = some (i, ()) := by
      apply scan16_some_intro
      · rw [if_pos ⟨hbit, haddr⟩]
      · intro j hj
        rw [if_neg (hfirst j hj)]
    have hr : mptcp_pm_addr6_event_handler ifa NetdevEvent.netdev_down mpcb =
        ({ mpcb with
            subflows := mpcb.subflows.map (subflowReact6 ifa NetdevEvent.netdev_down)
            loc6_bits := clearBit mpcb.loc6_bits i.val
            remove_addrs := mpcb.remove_addrs ||| (1 <<< (mpcb.addr6 i).id)
            rx_opt6 := { mpcb.rx_opt6 with
              slots := fun j =>
                if mpcb.rx_opt6.bits.testBit j.val then
                  { mpcb.rx_opt6.slots j with
                    bitfield := (mpcb.rx_opt6.slots j).bitfield &&&
                      clearBit mpcb.loc6_bits i.val }
                else mpcb.rx_opt6.slots j } },
         [PmAction.select_ack_sock_and_send_ack]) := by
      unfold mptcp_pm_addr6_event_handler
      rw [if_neg hguard, hscan]
      rfl
    rw [hr]
    refine ⟨?_, rfl, ?_, ?_⟩
    · intro j
      exact testBit_clearBit
    · intro j hb
      simp only [hb, if_true]
    · intro sk hsk hf hs
      obtain ⟨x, hx, rfl⟩ := List.mem_map.1 hsk
      by_cases hcond : x.family ≠ AF_INET6 ∨ x.saddr ≠ ifa.ifa_local
      · rw [subflowReact6, if_pos hcond] at hf hs
        rcases hcond with hc | hc
        · exact absurd hf hc
        · exact absurd hs hc
      · rw [subflowReact6, if_neg hcond]
        exact ⟨rfl, rfl⟩

theorem C7_netdev_down_handler_witness :
    (mptcp_pm_addr4_event_handler ⟨5, 0, false, false, true⟩ NetdevEvent.netdev_down
      ⟨1, fun _ => ⟨5, 3, false⟩, 1, 0, fun _ => ⟨0, 0, false⟩, 0, 0,
        ⟨1, fun _ => ⟨9, 0, 2, 3, 0⟩, false⟩, emptyRemFamily,
        [⟨2, 5, false, false, false, false, 0, 0⟩]⟩).1.loc4_bits.testBit 0 = false ∧
    (mptcp_pm_addr4_event_handler ⟨5, 0, false, false, true⟩ NetdevEvent.netdev_down
      ⟨1, fun _ => ⟨5, 3, false⟩, 1, 0, fun _ => ⟨0, 0, false⟩, 0, 0,
        ⟨1, fun _ => ⟨9, 0, 2, 3, 0⟩, false⟩, emptyRemFamily,
        [⟨2, 5, false, false, false, false, 0, 0⟩]⟩).1.remove_addrs = 8 ∧
    ((mptcp_pm_addr4_event_handler ⟨5, 0, false, false, true⟩ NetdevEvent.netdev_down
      ⟨1, fun _ => ⟨5, 3, false⟩, 1, 0, fun _ => ⟨0, 0, false⟩, 0, 0,
        ⟨1, fun _ => ⟨9, 0, 2, 3, 0⟩, false⟩, emptyRemFamily,
        [⟨2, 5, false, false, false, false, 0, 0⟩]⟩).1.rx_opt4.slots 0).bitfield = 0 ∧
    (mptcp_pm_addr6_event_handler ⟨5, 0, false, false, true⟩ NetdevEvent.netdev_down
      ⟨0, fun _ => ⟨0, 0, false⟩, 0, 1, fun _ => ⟨5, 19, false⟩, 1, 0,
        emptyRemFamily, ⟨1, fun _ => ⟨9, 0, 2, 3, 0⟩, false⟩, []⟩).1.remove_addrs = 524288 := by
  have h4 := (C7_netdev_down_handler ⟨5, 0, false, false, true⟩
      ⟨1, fun _ => ⟨5, 3, false⟩, 1, 0, fun _ => ⟨0, 0, false⟩, 0, 0,
        ⟨1, fun _ => ⟨9, 0, 2, 3, 0⟩, false⟩, emptyRemFamily,
        [⟨2, 5, false, false, false, false, 0, 0⟩]⟩ 0).1
    (by decide) rfl (by decide) rfl (by decide)
  have h6 := (C7_netdev_down_handler ⟨5, 0, false, false, true⟩
      ⟨0, fun _ => ⟨0, 0, false⟩, 0, 1, fun _ => ⟨5, 19, false⟩, 1, 0,
        emptyRemFamily, ⟨1, fun _ => ⟨9, 0, 2, 3, 0⟩, false⟩, []⟩ 0).2
    (by decide) rfl (by decide) (by decide) rfl (by decide)
  refine ⟨(h4.1 0).trans (by decide), (h4.2.1).trans (by decide),
    (h4.2.2.1 0 (by decide)).trans (by decide), (h6.2.1).trans (by decide)⟩
